import Mathlib

/-!
Verification development for the pivot-engine in-memory SQL engine.

This file shallowly embeds the parts of the Rust source that the statements
under scrutiny depend on:

* the scalar value domain and temporal codec     (src/column.rs)
* the null-bitmask column store                  (src/bitmap.rs, src/datastore.rs)
* the cast table                                 (src/sql/cast.rs)
* executor helpers and pipeline stages           (src/sql/executor.rs)

Modelling conventions:

* Rust machine integers (i64, i32, u32, usize) are modelled as Int / Nat.
  Wrap-around of `as usize` casts is modelled explicitly where it matters.
  Arithmetic overflow of i64 additions inside aggregate folds is not
  modelled (no theorem below exercises values anywhere near the bounds).
* Rust `f64` is modelled by the stand-in carrier `F64 := Int`.  No theorem
  in this file depends on floating-point arithmetic, parsing or rendering;
  every float-touching operation below is a clearly marked stand-in that is
  never evaluated by any proof.  (NaN, signed zero and rounding are
  therefore out of scope here.)
* Rust in-place mutation with `Result`-returns is modelled by functions
  returning the (possibly partially) mutated state paired with
  `Except PivotError Unit`, so that partial writes before an early `?`
  return are observable, exactly as they are in the Rust code.
* Rust indexing panics (`v[i]` out of bounds) are modelled as an
  `IndexOutOfBounds` error carrying the message "panic".
-/

set_option maxHeartbeats 1000000

namespace PivotEngine

/-- Stand-in carrier for Rust `f64`.  Only integral values ever appear in the
theorems of this file; all operations on it are uninterpreted stand-ins. -/
abbrev F64 := Int

/-- Stand-in for the `i64 as f64` cast (exact for small magnitudes). -/
def i64_to_f64 (i : Int) : F64 := i

/-- Stand-in for the saturating `f64 as i64` cast (exact on the integral
stand-in carrier for in-range values; never evaluated by a proof here). -/
def f64_to_i64 (f : F64) : Int := f

/-- Stand-in for f64 addition. -/
def f64_add (a b : F64) : F64 := a + b
/-- Stand-in for f64 subtraction. -/
def f64_sub (a b : F64) : F64 := a - b
/-- Stand-in for f64 multiplication. -/
def f64_mul (a b : F64) : F64 := a * b
/-- Stand-in for f64 division (uninterpreted; never evaluated by a proof). -/
def f64_div (a b : F64) : F64 := Int.tdiv a b
/-- Stand-in for f64 remainder (uninterpreted; never evaluated by a proof). -/
def f64_rem (a b : F64) : F64 := Int.tmod a b

/-- Stand-in for the Display rendering of an f64 (Rust prints integral
floats of magnitude below 10^15 with a trailing ".0"; the stand-in carrier
only holds integral values). -/
def f64_render (f : F64) : String := toString f ++ ".0"

/-- Stand-in for `f64::to_string` (plain Display, used only in
`expr_display_name`). -/
def f64_plain_render (f : F64) : String := toString f

/-- Stand-in for `str::parse::<f64>`: accepts only integral renderings.
No theorem in this file depends on float parsing. -/
def rust_parse_f64 (_s : String) : Option F64 := none

/-- ASCII upper-casing by character map (models Rust `str::to_uppercase`
for the ASCII inputs appearing in this engine; Lean's `Char.toUpper` folds
exactly the ASCII range).  Defined over the character list so that it
reduces in the kernel. -/
def rust_to_uppercase (s : String) : String := String.mk (s.data.map Char.toUpper)

/-- ASCII lower-casing by character map (see `rust_to_uppercase`). -/
def rust_to_lowercase (s : String) : String := String.mk (s.data.map Char.toLower)

/-- Error taxonomy of the engine (src/error.rs). -/
inductive PivotError where
  | SqlError (msg : String)
  | SchemaError (msg : String)
  | ColumnNotFound (msg : String)
  | NullError (msg : String)
  | IndexOutOfBounds (msg : String)
  | IoError (msg : String)
  | TypeError (msg : String)
deriving DecidableEq, Repr

/-- Interval payload (src/column.rs, `IntervalValue`): years/months/days are
i32, micros is i64. -/
structure IntervalValue where
  years : Int
  months : Int
  days : Int
  micros : Int
deriving DecidableEq, Repr

def IntervalValue.zero : IntervalValue := ⟨0, 0, 0, 0⟩

/-- Tagged scalar value domain (src/column.rs, `ScalarValue`). -/
inductive ScalarValue where
  | Boolean (b : Bool)
  | Int64 (i : Int)
  | Float64 (f : F64)
  | Utf8 (s : String)
  | Date (d : Int)
  | Timestamp (t : Int)
  | Time (t : Int)
  | Interval (iv : IntervalValue)
  | Null
deriving DecidableEq, Repr

/-- Closed set of column data types (src/schema.rs, `DataType`). -/
inductive DataType where
  | Boolean
  | Int64
  | Float64
  | Utf8
  | Date
  | Timestamp
  | Time
  | Interval
  | Decimal (precision : Nat) (scale : Nat)
deriving DecidableEq, Repr

/-- Display impl for DataType (src/schema.rs). -/
def data_type_display (t : DataType) : String :=
  match t with
  | .Boolean => "BOOLEAN"
  | .Int64 => "INTEGER"
  | .Float64 => "DOUBLE"
  | .Utf8 => "VARCHAR"
  | .Date => "DATE"
  | .Timestamp => "TIMESTAMP"
  | .Time => "TIME"
  | .Interval => "INTERVAL"
  | .Decimal p s => "DECIMAL(" ++ toString p ++ "," ++ toString s ++ ")"

/-! ## Temporal codec (src/column.rs) -/

/-- Standard Gregorian leap-year rule.  Rust `%` on i32 is truncating
(`Int.tmod`); for the `== 0` tests this agrees with any remainder. -/
def is_leap_year (year : Int) : Bool :=
  (Int.tmod year 4 == 0 && Int.tmod year 100 != 0) || Int.tmod year 400 == 0

/-- Days in a month; unknown month numbers fall back to 30 (src source). -/
def days_in_month (year : Int) (month : Nat) : Nat :=
  match month with
  | 1 | 3 | 5 | 7 | 8 | 10 | 12 => 31
  | 4 | 6 | 9 | 11 => 30
  | 2 => if is_leap_year year then 29 else 28
  | _ => 30

def days_in_year (year : Int) : Int :=
  if is_leap_year year then 366 else 365

/-- Forward half of the year-search loop in `epoch_days_to_ymd`:
entered with `remaining ≥ 0`; subtracts whole years while
`remaining ≥ days_in_year`. -/
def find_year_fwd (remaining : Int) (year : Int) : Int × Int :=
  if remaining < days_in_year year then (year, remaining)
  else find_year_fwd (remaining - days_in_year year) (year + 1)
termination_by remaining.toNat
decreasing_by
  have h1 : 0 < days_in_year year := by unfold days_in_year; split <;> omega
  have h2 : days_in_year year ≤ 366 := by unfold days_in_year; split <;> omega
  omega

/-- Backward half of the year-search loop in `epoch_days_to_ymd`:
entered with `remaining < 0`; steps the year down, adding that year's
length, until the remainder is non-negative (at which point it is
automatically smaller than the new year's length, so the Rust loop
exits). -/
def find_year_bwd (remaining : Int) (year : Int) : Int × Int :=
  let remp := remaining + days_in_year (year - 1)
  if remp < 0 then find_year_bwd remp (year - 1) else (year - 1, remp)
termination_by (-remaining).toNat
decreasing_by
  have h1 : 0 < days_in_year (year - 1) := by unfold days_in_year; split <;> omega
  omega

/-- Month-search loop in `epoch_days_to_ymd`: subtracts month lengths while
`remaining ≥ days_in_month`. -/
def find_month (remaining : Int) (year : Int) (month : Nat) : Nat × Int :=
  if remaining < (days_in_month year month : Int) then (month, remaining)
  else find_month (remaining - (days_in_month year month : Int)) year (month + 1)
termination_by remaining.toNat
decreasing_by
  have h1 : 0 < days_in_month year month := by
    unfold days_in_month; split <;> first | omega | (split <;> omega)
  have h2 : days_in_month year month ≤ 31 := by
    unfold days_in_month; split <;> first | omega | (split <;> omega)
  omega

/-- Epoch-days to (year, month, day) (src/column.rs `epoch_days_to_ymd`).
The single Rust loop never changes the sign of `remaining`, so it is
faithfully split into the forward and the backward search above. -/
def epoch_days_to_ymd (days : Int) : Int × Nat × Nat :=
  let yr := if days < 0 then find_year_bwd days 1970 else find_year_fwd days 1970
  let mr := find_month yr.2 yr.1 1
  (yr.1, mr.1, mr.2.toNat + 1)

/-- Sum of year lengths for years fromY, fromY+1, ..., fromY+n-1 (the Rust
`for y in lo..hi` accumulation in `ymd_to_epoch_days`). -/
def year_days_sum (fromY : Int) (n : Nat) : Int :=
  match n with
  | 0 => 0
  | k + 1 => days_in_year fromY + year_days_sum (fromY + 1) k

/-- Sum of month lengths for months 1 .. month-1 (the Rust
`for m in 1..month` accumulation in `ymd_to_epoch_days`). -/
def month_days_before (year : Int) (month : Nat) : Int :=
  match month with
  | 0 => 0
  | 1 => 0
  | k + 2 => month_days_before year (k + 1) + (days_in_month year (k + 1) : Int)

/-- Conversion of (year, month, day) to epoch days (src/column.rs `ymd_to_epoch_days`). -/
def ymd_to_epoch_days (year : Int) (month day : Nat) : Int :=
  (if year ≥ 1970 then year_days_sum 1970 (year - 1970).toNat
   else - year_days_sum year (1970 - year).toNat)
  + month_days_before year month + (day : Int) - 1

/-- Left-pad a digit string with zeros to the given width. -/
def pad_digits (width : Nat) (s : String) : String :=
  if s.length < width then String.mk (List.replicate (width - s.length) '0') ++ s else s

/-- Rust `format!("{:0w}", n)` for integers: sign-aware zero padding
("-001" for -1 at width 4). -/
def pad_int (width : Nat) (n : Int) : String :=
  if n < 0 then "-" ++ pad_digits (width - 1) (toString n.natAbs)
  else pad_digits width (toString n.natAbs)

/-- Epoch days rendered as "YYYY-MM-DD" (src/column.rs
`epoch_days_to_date_string`). -/
def epoch_days_to_date_string (days : Int) : String :=
  let ymd := epoch_days_to_ymd days
  pad_int 4 ymd.1 ++ "-" ++ pad_int 2 (ymd.2.1 : Int) ++ "-" ++ pad_int 2 (ymd.2.2 : Int)

/-- Epoch microseconds rendered as "YYYY-MM-DD HH:MM:SS[.ffffff]"
(src/column.rs `epoch_micros_to_ts_string`).  Note: `total_secs` and `us`
use Rust's truncating `/` and `%` (`Int.tdiv` / `Int.tmod`), while only
the day split uses Euclidean division. -/
def epoch_micros_to_ts_string (micros : Int) : String :=
  let total_secs := Int.tdiv micros 1000000
  let us := (Int.tmod micros 1000000).natAbs
  let days := Int.ediv total_secs 86400
  let secs_of_day := Int.emod total_secs 86400
  let ymd := epoch_days_to_ymd days
  let h := Int.tdiv secs_of_day 3600
  let mi := Int.tdiv (Int.tmod secs_of_day 3600) 60
  let s := Int.tmod secs_of_day 60
  let datetime := pad_int 4 ymd.1 ++ "-" ++ pad_int 2 (ymd.2.1 : Int) ++ "-"
    ++ pad_int 2 (ymd.2.2 : Int) ++ " " ++ pad_int 2 h ++ ":" ++ pad_int 2 mi
    ++ ":" ++ pad_int 2 s
  if us == 0 then datetime else datetime ++ "." ++ pad_int 6 (us : Int)

/-- Time-of-day microseconds rendered as "HH:MM:SS[.ffffff]"
(src/column.rs `micros_to_time_string`). -/
def micros_to_time_string (micros : Int) : String :=
  let total_secs := Int.tdiv micros 1000000
  let us := (Int.tmod micros 1000000).natAbs
  let h := Int.tdiv total_secs 3600
  let mi := Int.tdiv (Int.tmod total_secs 3600) 60
  let s := Int.tmod total_secs 60
  let hms := pad_int 2 h ++ ":" ++ pad_int 2 mi ++ ":" ++ pad_int 2 s
  if us == 0 then hms else hms ++ "." ++ pad_int 6 (us : Int)

/-! ### String scanning primitives used by the parsers -/

/-- Split at the first occurrence of the separator, which is dropped. -/
def break_at (sep : Char) : List Char → Option (List Char × List Char)
  | [] => none
  | c :: rest =>
    if c = sep then some ([], rest)
    else match break_at sep rest with
      | none => none
      | some (b, a) => some (c :: b, a)

/-- Rust `str::splitn(n, sep)` on a character list: at most n pieces, the
last piece keeps the remainder (separators included). -/
def splitn_chars (n : Nat) (sep : Char) (s : List Char) : List (List Char) :=
  match n with
  | 0 => []
  | 1 => [s]
  | m + 2 =>
    match break_at sep s with
    | none => [s]
    | some (before, after) => before :: splitn_chars (m + 1) sep after

/-- Accumulate the numeric value of a digit list. -/
def digits_value_go : List Char → Nat → Option Nat
  | [], acc => some acc
  | c :: rest, acc =>
    if c.isDigit then digits_value_go rest (acc * 10 + (c.toNat - 48)) else none

/-- Numeric value of a non-empty all-digit character list, or none. -/
def digits_value : List Char → Option Nat
  | [] => none
  | cs => digits_value_go cs 0

/-- Rust `str::parse::<u32>`: optional leading '+', then digits, range
checked. -/
def rust_parse_u32 (cs : List Char) : Option Nat :=
  let body := match cs with
    | '+' :: rest => rest
    | other => other
  match digits_value body with
  | some v => if v ≤ 4294967295 then some v else none
  | none => none

/-- Rust `str::parse::<i32>`: optional sign, digits, range checked. -/
def rust_parse_i32 (cs : List Char) : Option Int :=
  match cs with
  | '-' :: rest =>
    match digits_value rest with
    | some v => if v ≤ 2147483648 then some (-(v : Int)) else none
    | none => none
  | '+' :: rest =>
    match digits_value rest with
    | some v => if v ≤ 2147483647 then some (v : Int) else none
    | none => none
  | other =>
    match digits_value other with
    | some v => if v ≤ 2147483647 then some (v : Int) else none
    | none => none

/-- Rust `str::parse::<i64>`: optional sign, digits, range checked. -/
def rust_parse_i64 (cs : List Char) : Option Int :=
  match cs with
  | '-' :: rest =>
    match digits_value rest with
    | some v => if v ≤ 9223372036854775808 then some (-(v : Int)) else none
    | none => none
  | '+' :: rest =>
    match digits_value rest with
    | some v => if v ≤ 9223372036854775807 then some (v : Int) else none
    | none => none
  | other =>
    match digits_value other with
    | some v => if v ≤ 9223372036854775807 then some (v : Int) else none
    | none => none

/-- Rust `str::trim` (whitespace at both ends; `Char.isWhitespace` models
`char::is_whitespace` on the characters appearing here). -/
def trim_chars (s : List Char) : List Char :=
  (((s.dropWhile Char.isWhitespace).reverse).dropWhile Char.isWhitespace).reverse

/-! ### Temporal parsers (src/column.rs) -/

/-- Parse "YYYY-MM-DD" to epoch days (src/column.rs `date_string_to_epoch_days`).
Month is validated in 1..=12 and day in 1..=31 only. -/
def date_string_to_epoch_days (s : String) : Option Int :=
  let parts := splitn_chars 3 '-' s.data
  if parts.length < 3 then none
  else
    match rust_parse_i32 (parts.getD 0 []), rust_parse_u32 (parts.getD 1 []),
          rust_parse_u32 (parts.getD 2 []) with
    | some year, some month, some day =>
      if month < 1 || month > 12 || day < 1 || day > 31 then none
      else some (ymd_to_epoch_days year month day)
    | _, _, _ => none

/-- Parse "HH:MM[:SS[.ffffff]]" to microseconds since midnight (src/column.rs
`time_string_to_micros`).  The fractional part is cut to at most six
digits, right-padded with '0' to six, then parsed. -/
def time_string_to_micros (s : String) : Option Int :=
  let parts := splitn_chars 3 ':' s.data
  if parts.length < 2 then none
  else
    match rust_parse_i64 (parts.getD 0 []), rust_parse_i64 (parts.getD 1 []) with
    | some h, some m =>
      if parts.length = 3 then
        let sp := splitn_chars 2 '.' (parts.getD 2 [])
        match rust_parse_i64 (sp.getD 0 []) with
        | some secs =>
          if sp.length = 2 then
            let us_str := sp.getD 1 []
            let padded := (us_str.take (min us_str.length 6)) ++
              List.replicate (6 - min us_str.length 6) '0'
            match rust_parse_i64 padded with
            | some us => some ((h * 3600 + m * 60 + secs) * 1000000 + us)
            | none => none
          else some ((h * 3600 + m * 60 + secs) * 1000000)
        | none => none
      else some ((h * 3600 + m * 60) * 1000000)
    | _, _ => none

/-- Timestamp string to epoch microseconds (src/column.rs
`timestamp_string_to_epoch_micros`): trim, split the date and time parts at
the first ' ' (else 'T', else assume midnight), then combine. -/
def timestamp_string_to_epoch_micros (s : String) : Option Int :=
  let cs := trim_chars s.data
  let split :=
    match break_at ' ' cs with
    | some (d, t) => (d, t)
    | none =>
      match break_at 'T' cs with
      | some (d, t) => (d, t)
      | none => (cs, "00:00:00".data)
  match date_string_to_epoch_days (String.mk split.1),
        time_string_to_micros (String.mk split.2) with
  | some days, some time_micros => some (days * 86400000000 + time_micros)
  | _, _ => none

/-! ## Null bitmask (src/bitmap.rs) -/

/-- Validity bitmask backed by a vector of bools. -/
def NullBitmask := List Bool
deriving DecidableEq, Repr

def NullBitmask.push (m : NullBitmask) (is_valid : Bool) : NullBitmask :=
  List.append m [is_valid]

def NullBitmask.get (m : NullBitmask) (idx : Nat) : Bool :=
  (List.get? m idx).getD false

/-- Out-of-range `set` is silently ignored (src behaviour). -/
def NullBitmask.set (m : NullBitmask) (idx : Nat) (is_valid : Bool) : NullBitmask :=
  if idx < List.length m then List.set m idx is_valid else m

def NullBitmask.len (m : NullBitmask) : Nat := List.length m

/-! ## Schema (src/schema.rs) -/

structure ColumnDef where
  name : String
  data_type : DataType
  nullable : Bool
deriving DecidableEq, Repr

structure Schema where
  columns : List ColumnDef
deriving DecidableEq, Repr

def Schema.column_count (s : Schema) : Nat := s.columns.length

/-- Rust `str::eq_ignore_ascii_case` (Lean's `Char.toLower` folds exactly
the ASCII range, matching Rust). -/
def eq_ignore_ascii_case (a b : String) : Bool :=
  rust_to_lowercase a == rust_to_lowercase b

def Schema.find_column_index (s : Schema) (name : String) : Option Nat :=
  s.columns.findIdx? (fun c => eq_ignore_ascii_case c.name name)

def Schema.has_column (s : Schema) (name : String) : Bool :=
  (s.find_column_index name).isSome

/-! ## Column store (src/datastore.rs) -/

structure ColumnStorage where
  booleans : List Bool
  int64s : List Int
  float64s : List F64
  utf8s : List String
  nullmask : NullBitmask
deriving DecidableEq, Repr

def ColumnStorage.new : ColumnStorage := ⟨[], [], [], [], []⟩

structure DataStore where
  schema : Schema
  columns : List ColumnStorage
  row_count : Nat
deriving DecidableEq, Repr

/-- Model of `DataStore::new`: one empty storage per schema column. -/
def DataStore.new (schema : Schema) : DataStore :=
  ⟨schema, List.replicate schema.column_count ColumnStorage.new, 0⟩

/-- Model of `DataStore::coerce_value` (src/datastore.rs): the partial coercion
table; all uncovered (value, target) pairs pass the value through
unchanged. -/
def coerce_value (val : ScalarValue) (target : DataType) : Except PivotError ScalarValue :=
  match val, target with
  | .Null, _ => .ok .Null
  | .Int64 i, .Float64 => .ok (.Float64 (i64_to_f64 i))
  | .Float64 _, .Float64 => .ok val
  | .Int64 _, .Int64 => .ok val
  | .Utf8 s, .Date =>
    match date_string_to_epoch_days s with
    | some d => .ok (.Date d)
    | none => .error (.TypeError ("Cannot parse date: " ++ s))
  | .Utf8 s, .Timestamp =>
    match timestamp_string_to_epoch_micros s with
    | some t => .ok (.Timestamp t)
    | none => .error (.TypeError ("Cannot parse timestamp: " ++ s))
  | .Utf8 s, .Time =>
    match time_string_to_micros s with
    | some t => .ok (.Time t)
    | none => .error (.TypeError ("Cannot parse time: " ++ s))
  | .Int64 i, .Date => .ok (.Date i)
  | .Int64 i, .Timestamp => .ok (.Timestamp i)
  | .Int64 i, .Time => .ok (.Time i)
  | .Float64 v, .Int64 => .ok (.Int64 (f64_to_i64 v))
  | .Int64 i, .Decimal _ _ => .ok (.Float64 (i64_to_f64 i))
  | .Float64 _, .Decimal _ _ => .ok val
  | _, _ => .ok val

/-- Interval fields joined by ':' for utf8 storage (src/datastore.rs). -/
def interval_to_storage_string (iv : IntervalValue) : String :=
  toString iv.years ++ ":" ++ toString iv.months ++ ":" ++ toString iv.days
    ++ ":" ++ toString iv.micros

/-- Model of `DataStore::push_to_column` on a single storage: one entry goes to the
buffer picked by the VALUE's variant (by the declared type for Null), and
one validity bit is pushed. -/
def push_to_column (col : ColumnStorage) (data_type : DataType) (val : ScalarValue) :
    ColumnStorage :=
  match val with
  | .Null =>
    let filled :=
      match data_type with
      | .Boolean => { col with booleans := col.booleans ++ [false] }
      | .Int64 | .Date | .Timestamp | .Time => { col with int64s := col.int64s ++ [0] }
      | .Float64 | .Decimal _ _ => { col with float64s := col.float64s ++ [0] }
      | .Utf8 | .Interval => { col with utf8s := col.utf8s ++ [""] }
    { filled with nullmask := filled.nullmask.push false }
  | .Boolean b => { col with booleans := col.booleans ++ [b], nullmask := col.nullmask.push true }
  | .Int64 i => { col with int64s := col.int64s ++ [i], nullmask := col.nullmask.push true }
  | .Float64 f => { col with float64s := col.float64s ++ [f], nullmask := col.nullmask.push true }
  | .Utf8 s => { col with utf8s := col.utf8s ++ [s], nullmask := col.nullmask.push true }
  | .Date d | .Timestamp d | .Time d =>
    { col with int64s := col.int64s ++ [d], nullmask := col.nullmask.push true }
  | .Interval iv =>
    { col with
      utf8s := col.utf8s ++ [interval_to_storage_string iv]
      nullmask := col.nullmask.push true }

/-- First NOT NULL violation in the pre-pass of `append_row`, if any. -/
def null_check (cols : List ColumnDef) (values : List ScalarValue) : Option String :=
  match cols, values with
  | c :: cs, v :: vs =>
    if v = .Null && !c.nullable then some c.name else null_check cs vs
  | _, _ => none

/-- Write phase of `append_row`: for each value in order, coerce and push
into column i.  A coercion failure aborts with the columns written so far
left in place (this mirrors the `?` inside the Rust write loop). -/
def write_values (ds : DataStore) (vals : List ScalarValue) (i : Nat) :
    DataStore × Except PivotError Unit :=
  match vals with
  | [] => (ds, .ok ())
  | v :: rest =>
    match ds.schema.columns.get? i with
    | none => (ds, .error (.IndexOutOfBounds "panic"))
    | some cd =>
      match coerce_value v cd.data_type with
      | .error e => (ds, .error e)
      | .ok cv =>
        match ds.columns.get? i with
        | none => (ds, .error (.IndexOutOfBounds "panic"))
        | some col =>
          write_values
            { ds with columns := ds.columns.set i (push_to_column col cd.data_type cv) }
            rest (i + 1)

/-- Model of `DataStore::append_row`: arity check, NOT NULL pre-pass, then the write
loop; `row_count` is bumped only after every column was written. -/
def append_row (ds : DataStore) (values : List ScalarValue) :
    DataStore × Except PivotError Unit :=
  if values.length ≠ ds.schema.column_count then
    (ds, .error (.SchemaError ("Expected " ++ toString ds.schema.column_count
      ++ " values, got " ++ toString values.length)))
  else
    match null_check ds.schema.columns values with
    | some name => (ds, .error (.NullError ("Column '" ++ name ++ "' is NOT NULL")))
    | none =>
      match write_values ds values 0 with
      | (ds2, .ok _) => ({ ds2 with row_count := ds2.row_count + 1 }, .ok ())
      | (ds2, .error e) => (ds2, .error e)

/-- In-place update of one storage cell for `set_value`: assign when the
row is inside the buffer, push when it is right past the end. -/
def assign_or_push {α : Type} (xs : List α) (row : Nat) (x : α) : List α :=
  if row < xs.length then xs.set row x else xs ++ [x]

/-- Positional cell update of one storage for `set_value`: the buffer
picked by the coerced VALUE's variant is assigned (or push-extended at the
tail) and the validity bit set. -/
def set_col_update (col : ColumnStorage) (row : Nat) (coerced : ScalarValue) :
    ColumnStorage :=
  match coerced with
  | .Null => { col with nullmask := col.nullmask.set row false }
  | .Boolean b => { col with
      booleans := assign_or_push col.booleans row b
      nullmask := col.nullmask.set row true }
  | .Int64 i => { col with
      int64s := assign_or_push col.int64s row i
      nullmask := col.nullmask.set row true }
  | .Float64 f => { col with
      float64s := assign_or_push col.float64s row f
      nullmask := col.nullmask.set row true }
  | .Utf8 s => { col with
      utf8s := assign_or_push col.utf8s row s
      nullmask := col.nullmask.set row true }
  | .Date d | .Timestamp d | .Time d =>
    { col with
      int64s := assign_or_push col.int64s row d
      nullmask := col.nullmask.set row true }
  | .Interval iv =>
    { col with
      utf8s := assign_or_push col.utf8s row (interval_to_storage_string iv)
      nullmask := col.nullmask.set row true }

/-- Model of `DataStore::set_value`: bounds check, coercion, then positional update
of the buffer picked by the coerced VALUE's variant plus the validity
bit. -/
def set_value (ds : DataStore) (row : Nat) (col_idx : Nat) (val : ScalarValue) :
    DataStore × Except PivotError Unit :=
  if row ≥ ds.row_count then
    (ds, .error (.IndexOutOfBounds ("Row " ++ toString row ++ " out of bounds")))
  else
    match ds.schema.columns.get? col_idx with
    | none => (ds, .error (.IndexOutOfBounds "panic"))
    | some cd =>
      match coerce_value val cd.data_type with
      | .error e => (ds, .error e)
      | .ok coerced =>
        match ds.columns.get? col_idx with
        | none => (ds, .error (.IndexOutOfBounds "panic"))
        | some col =>
          ({ ds with columns := ds.columns.set col_idx (set_col_update col row coerced) },
           .ok ())

/-- Model of `DataStore::add_column`: duplicate-name check, then a fresh storage
whose selected buffer is pre-filled with `row_count` neutral entries and an
all-invalid bitmask (the Rust per-row push loop, rendered as replicate). -/
def add_column (ds : DataStore) (cdef : ColumnDef) : DataStore × Except PivotError Unit :=
  if ds.schema.has_column cdef.name then
    (ds, .error (.SchemaError ("Column '" ++ cdef.name ++ "' already exists")))
  else
    let storage : ColumnStorage :=
      { booleans := (match cdef.data_type with
          | .Boolean => List.replicate ds.row_count false | _ => [])
        int64s := (match cdef.data_type with
          | .Int64 | .Date | .Timestamp | .Time => List.replicate ds.row_count 0 | _ => [])
        float64s := (match cdef.data_type with
          | .Float64 | .Decimal _ _ => List.replicate ds.row_count 0 | _ => [])
        utf8s := (match cdef.data_type with
          | .Utf8 | .Interval => List.replicate ds.row_count "" | _ => [])
        nullmask := List.replicate ds.row_count false }
    ({ ds with
       schema := ⟨ds.schema.columns ++ [cdef]⟩
       columns := ds.columns ++ [storage] }, .ok ())

/-- Model of `DataStore::drop_column`: resolve by case-insensitive name, remove the
schema entry and the storage at that index. -/
def drop_column (ds : DataStore) (name : String) : DataStore × Except PivotError Unit :=
  match ds.schema.find_column_index name with
  | none => (ds, .error (.ColumnNotFound name))
  | some idx =>
    ({ ds with
       schema := ⟨ds.schema.columns.eraseIdx idx⟩
       columns := ds.columns.eraseIdx idx }, .ok ())

/-! ## Well-formedness of the column store

The spec asserts that for every column, the typed buffer selected by the
column's DECLARED data type and the validity bitmask both have length equal
to the table's row count. -/

/-- Which of the four parallel typed buffers a data type selects
(spec section 3, mirrored by the match arms of `push_to_column`). -/
inductive StorageClass where
  | bools
  | ints
  | floats
  | strs
deriving DecidableEq, Repr

def storage_class (t : DataType) : StorageClass :=
  match t with
  | .Boolean => .bools
  | .Int64 | .Date | .Timestamp | .Time => .ints
  | .Float64 | .Decimal _ _ => .floats
  | .Utf8 | .Interval => .strs

/-- The buffer a non-null VALUE is physically written to by
`push_to_column` / `set_value`. -/
def value_class (v : ScalarValue) : Option StorageClass :=
  match v with
  | .Boolean _ => some .bools
  | .Int64 _ => some .ints
  | .Float64 _ => some .floats
  | .Utf8 _ => some .strs
  | .Date _ | .Timestamp _ | .Time _ => some .ints
  | .Interval _ => some .strs
  | .Null => none

/-- Length of the typed buffer selected by the declared data type. -/
def selected_len (col : ColumnStorage) (t : DataType) : Nat :=
  match storage_class t with
  | .bools => col.booleans.length
  | .ints => col.int64s.length
  | .floats => col.float64s.length
  | .strs => col.utf8s.length

/-- Column-store length invariant: one storage per schema column, and for
every column the selected typed buffer and the validity bitmask both have
length `row_count`. -/
def wfb (ds : DataStore) : Bool :=
  ds.columns.length == ds.schema.columns.length &&
  (ds.schema.columns.zip ds.columns).all fun p =>
    selected_len p.2 p.1.data_type == ds.row_count &&
    p.2.nullmask.len == ds.row_count

/-- A value is storage-compatible with a declared type when its coerced
form is Null or lands in the buffer the declared type selects.  (Values
outside this class are accepted by `append_row` but stored in a different
buffer, which is exactly what breaks the invariant.) -/
def value_fits (v : ScalarValue) (t : DataType) : Bool :=
  match coerce_value v t with
  | .ok cv =>
    match value_class cv with
    | none => true
    | some c => c == storage_class t
  | .error _ => true

/-- The mutating table operations quantified over by the invariant claim. -/
inductive TableOp where
  | append (values : List ScalarValue)
  | set (row : Nat) (col : Nat) (val : ScalarValue)
  | add (cdef : ColumnDef)
  | drop (name : String)
deriving Repr

def apply_op (ds : DataStore) (op : TableOp) : DataStore × Except PivotError Unit :=
  match op with
  | .append values => append_row ds values
  | .set row col val => set_value ds row col val
  | .add cdef => add_column ds cdef
  | .drop name => drop_column ds name

/-- Run a sequence of operations, succeeding only when every operation
succeeds. -/
def apply_ops (ds : DataStore) : List TableOp → Option DataStore
  | [] => some ds
  | op :: rest =>
    match apply_op ds op with
    | (ds2, .ok _) => apply_ops ds2 rest
    | (_, .error _) => none

/-- Storage compatibility of one operation against the current schema. -/
def op_fits (ds : DataStore) (op : TableOp) : Bool :=
  match op with
  | .append values =>
    (values.zip ds.schema.columns).all fun p => value_fits p.1 p.2.data_type
  | .set _ col val =>
    match ds.schema.columns.get? col with
    | some cd => value_fits val cd.data_type
    | none => true
  | .add _ => true
  | .drop _ => true

/-- Storage compatibility along a run (evaluated against the evolving
schema). -/
def fits_run (ds : DataStore) : List TableOp → Bool
  | [] => true
  | op :: rest =>
    op_fits ds op &&
    (match apply_op ds op with
     | (ds2, .ok _) => fits_run ds2 rest
     | (_, .error _) => true)

/-! ## Display rendering of scalar values (src/column.rs, impl Display) -/

/-- Deterministic display form: dates as YYYY-MM-DD, timestamps with
optional microseconds, NULL as the literal "NULL".  Floats go through the
`f64_render` stand-in (exact for the integral values this file uses). -/
def scalar_display (v : ScalarValue) : String :=
  match v with
  | .Boolean b => if b then "true" else "false"
  | .Int64 i => toString i
  | .Float64 f => f64_render f
  | .Utf8 s => s
  | .Date d => epoch_days_to_date_string d
  | .Timestamp ts => epoch_micros_to_ts_string ts
  | .Time t => micros_to_time_string t
  | .Interval iv =>
    toString iv.years ++ " years " ++ toString iv.months ++ " months "
      ++ toString iv.days ++ " days " ++ toString iv.micros ++ " micros"
  | .Null => "NULL"

/-! ## Cast table (src/sql/cast.rs) -/

/-- Model of `to_int64`: note the wildcard arm — `Time` is NOT matched, so a time
value casts to NULL, not to its microsecond count. -/
def to_int64 (v : ScalarValue) : ScalarValue :=
  match v with
  | .Int64 i => .Int64 i
  | .Float64 f => .Int64 (f64_to_i64 f)
  | .Boolean b => .Int64 (if b then 1 else 0)
  | .Utf8 s =>
    match rust_parse_i64 (trim_chars s.data) with
    | some i => .Int64 i
    | none =>
      match rust_parse_f64 (String.mk (trim_chars s.data)) with
      | some f => .Int64 (f64_to_i64 f)
      | none => .Null
  | .Date d => .Int64 d
  | .Timestamp t => .Int64 t
  | _ => .Null

def to_float64 (v : ScalarValue) : ScalarValue :=
  match v with
  | .Int64 i => .Float64 (i64_to_f64 i)
  | .Float64 f => .Float64 f
  | .Boolean b => .Float64 (if b then 1 else 0)
  | .Utf8 s =>
    match rust_parse_f64 (String.mk (trim_chars s.data)) with
    | some f => .Float64 f
    | none => .Null
  | _ => .Null

def to_utf8 (v : ScalarValue) : ScalarValue := .Utf8 (scalar_display v)

def to_boolean (v : ScalarValue) : ScalarValue :=
  match v with
  | .Boolean b => .Boolean b
  | .Int64 i => .Boolean (i != 0)
  | .Float64 f => .Boolean (f != 0)
  | .Utf8 s =>
    let low := rust_to_lowercase s
    if low == "true" || low == "1" || low == "yes" || low == "t" || low == "on" then
      .Boolean true
    else if low == "false" || low == "0" || low == "no" || low == "f" || low == "off" then
      .Boolean false
    else .Null
  | _ => .Null

def to_date (v : ScalarValue) : ScalarValue :=
  match v with
  | .Date d => .Date d
  | .Timestamp t => .Date (Int.tdiv t 86400000000)
  | .Int64 i => .Date i
  | .Utf8 s =>
    match date_string_to_epoch_days s with
    | some d => .Date d
    | none => .Null
  | _ => .Null

def to_timestamp (v : ScalarValue) : ScalarValue :=
  match v with
  | .Timestamp t => .Timestamp t
  | .Date d => .Timestamp (d * 86400000000)
  | .Int64 i => .Timestamp i
  | .Utf8 s =>
    match timestamp_string_to_epoch_micros s with
    | some t => .Timestamp t
    | none => .Null
  | _ => .Null

def to_time (v : ScalarValue) : ScalarValue :=
  match v with
  | .Time t => .Time t
  | .Int64 i => .Time i
  | .Utf8 s =>
    match time_string_to_micros s with
    | some t => .Time t
    | none => .Null
  | _ => .Null

/-- Model of `try_cast_value`: returns Null whenever conversion is not possible. -/
def try_cast_value (v : ScalarValue) (target : DataType) : ScalarValue :=
  if v = .Null then .Null
  else
    match target with
    | .Int64 => to_int64 v
    | .Float64 | .Decimal _ _ => to_float64 v
    | .Utf8 => to_utf8 v
    | .Boolean => to_boolean v
    | .Date => to_date v
    | .Timestamp => to_timestamp v
    | .Time => to_time v
    | .Interval => .Null

/-- Model of `cast_value`, which delegates to `try_cast_value` (CAST and TRY_CAST share one
coercion table). -/
def cast_value (v : ScalarValue) (target : DataType) : ScalarValue :=
  try_cast_value v target

/-! ## Expression AST (src/sql/ast.rs)

Sub-STATEMENTS inside expressions (scalar subqueries, EXISTS, IN-subquery)
are carried as an opaque `Unit` payload: the executor's expression
evaluation never inspects them (it returns the NULL / false placeholders of
src/sql/executor.rs lines 1445-1451), and no claim here depends on their
shape. -/

inductive LiteralValue where
  | Integer (n : Int)
  | Float (f : F64)
  | String (s : String)
  | Boolean (b : Bool)
  | Null
  | Interval (value : String) (unit : String)
deriving Repr

inductive BinOp where
  | Add | Sub | Mul | Div | Mod
  | Eq | NotEq | Lt | LtEq | Gt | GtEq
  | And | Or
  | Concat
deriving DecidableEq, Repr

inductive UnaryOp where
  | Neg
  | Not
deriving DecidableEq, Repr

inductive WindowFrameKind where
  | Rows
  | Range
deriving Repr

mutual
inductive Expr where
  | Literal (lit : LiteralValue)
  | Column (table : Option String) (name : String)
  | BinaryOp (left : Expr) (op : BinOp) (right : Expr)
  | UnaryOp (op : UnaryOp) (expr : Expr)
  | Function (name : String) (args : List Expr) (distinct : Bool) (over : Option WindowSpec)
  | Cast (expr : Expr) (data_type : DataType)
  | TryCast (expr : Expr) (data_type : DataType)
  | Case (operand : Option Expr) (when_clauses : List (Expr × Expr)) (else_clause : Option Expr)
  | IsNull (expr : Expr) (negated : Bool)
  | InList (expr : Expr) (list : List Expr) (negated : Bool)
  | InSubquery (expr : Expr) (query : Unit) (negated : Bool)
  | Between (expr : Expr) (low : Expr) (high : Expr) (negated : Bool)
  | Like (expr : Expr) (pattern : Expr) (negated : Bool) (case_insensitive : Bool)
  | Subquery (query : Unit)
  | Exists (query : Unit) (negated : Bool)
  | Wildcard
  | TypeCast (expr : Expr) (data_type : DataType)

inductive WindowSpec where
  | mk (name : Option String) (partition_by : List Expr) (order_by : List OrderByItem)
       (frame : Option WindowFrame)

inductive OrderByItem where
  | mk (expr : Expr) (ascending : Bool) (nulls_first : Option Bool)

inductive WindowFrame where
  | mk (kind : WindowFrameKind) (start : WindowFrameBound) (stop : Option WindowFrameBound)

inductive WindowFrameBound where
  | UnboundedPreceding
  | Preceding (e : Expr)
  | CurrentRow
  | Following (e : Expr)
  | UnboundedFollowing
end

inductive SelectItem where
  | Wildcard
  | TableWildcard (table : String)
  | Expr (expr : Expr) (aliasName : Option String)

/-- SELECT statement shape (src/sql/ast.rs).  The FROM / JOIN table
references carry sub-statements and are held opaquely (`Unit`); the stages
modeled in this file — `exec_group_by` onward — never look at them. -/
structure SelectStatement where
  distinct : Bool
  columns : List SelectItem
  from_clause : Option Unit
  joins : List Unit
  where_clause : Option Expr
  group_by : List Expr
  having : Option Expr
  order_by : List OrderByItem
  limit : Option Expr
  offset : Option Expr

inductive SetOp where
  | Union
  | Intersect
  | Except
deriving DecidableEq, Repr

/-! ## Executor row sets and helpers (src/sql/executor.rs) -/

structure Col where
  table : Option String
  name : String
  dtype : DataType
deriving DecidableEq, Repr

structure RowSet where
  cols : List Col
  rows : List (List ScalarValue)
deriving DecidableEq, Repr

/-- Truthiness rule used by WHERE / HAVING / JOIN ON (src `is_truthy`). -/
def is_truthy (v : ScalarValue) : Bool :=
  match v with
  | .Boolean b => b
  | .Null => false
  | .Int64 i => i != 0
  | .Float64 f => f != 0
  | .Utf8 s => !s.isEmpty
  | _ => true

/-- SQL `=` comparison helper (src `scalar_eq`): two NULLs compare unequal
here, but note `eval_binary_op` never reaches this function with a NULL
operand. -/
def scalar_eq (a b : ScalarValue) : Bool :=
  match a, b with
  | .Null, .Null => false
  | .Null, _ | _, .Null => false
  | .Int64 x, .Int64 y => x == y
  | .Float64 x, .Float64 y => x == y
  | .Int64 x, .Float64 y => i64_to_f64 x == y
  | .Float64 x, .Int64 y => x == i64_to_f64 y
  | .Utf8 x, .Utf8 y => x == y
  | .Boolean x, .Boolean y => x == y
  | .Date x, .Date y => x == y
  | .Timestamp x, .Timestamp y => x == y
  | .Time x, .Time y => x == y
  | _, _ => false

/-- Total ordering helper (src `scalar_cmp`); NULLs sort greater, unlike
pairs compare equal.  Float comparisons go through the integral stand-in
carrier. -/
def scalar_cmp (a b : ScalarValue) : Ordering :=
  match a, b with
  | .Null, .Null => .eq
  | .Null, _ => .gt
  | _, .Null => .lt
  | .Int64 x, .Int64 y => compare x y
  | .Float64 x, .Float64 y => compare x y
  | .Int64 x, .Float64 y => compare (i64_to_f64 x) y
  | .Float64 x, .Int64 y => compare x (i64_to_f64 y)
  | .Utf8 x, .Utf8 y => compare x y
  | .Boolean x, .Boolean y => compare x y
  | .Date x, .Date y => compare x y
  | .Timestamp x, .Timestamp y => compare x y
  | .Time x, .Time y => compare x y
  | _, _ => .eq

/-- Group/partition key rendering (src `scalar_to_key`): NULL uses a
reserved sentinel. -/
def scalar_to_key (v : ScalarValue) : String :=
  match v with
  | .Null => "\x00NULL\x00"
  | other => scalar_display other

/-- Concatenation rendering (src `scalar_to_string`): NULL renders empty. -/
def scalar_to_string (v : ScalarValue) : String :=
  match v with
  | .Null => ""
  | other => scalar_display other

/-- Numeric binary dispatch (src `numeric_op`): int op int stays int, any
float makes it float, anything else is NULL. -/
def numeric_op (l r : ScalarValue) (int_op : Int → Int → Int)
    (float_op : F64 → F64 → F64) : ScalarValue :=
  match l, r with
  | .Int64 a, .Int64 b => .Int64 (int_op a b)
  | .Float64 a, .Float64 b => .Float64 (float_op a b)
  | .Int64 a, .Float64 b => .Float64 (float_op (i64_to_f64 a) b)
  | .Float64 a, .Int64 b => .Float64 (float_op a (i64_to_f64 b))
  | _, _ => .Null

/-- Rust truncating `%` on i64 panics on a zero divisor; `Int.tmod _ 0`
returns the dividend instead.  No claim in this file evaluates `%`. -/
def rust_i64_rem (a b : Int) : Int := Int.tmod a b

/-- Binary operator evaluation (src `eval_binary_op`).  The NULL
propagation preamble runs FIRST for every operator except the AND / OR
short circuits: equality, comparisons and concatenation with a NULL
operand therefore all yield NULL before their own arms are reached. -/
def eval_binary_op (op : BinOp) (l r : ScalarValue) : Except PivotError ScalarValue :=
  if l = .Null ∨ r = .Null then
    match op with
    | .And =>
      if l = .Boolean false ∨ r = .Boolean false then .ok (.Boolean false)
      else .ok .Null
    | .Or =>
      if l = .Boolean true ∨ r = .Boolean true then .ok (.Boolean true)
      else .ok .Null
    | _ => .ok .Null
  else
    match op with
    | .Add => .ok (numeric_op l r (· + ·) f64_add)
    | .Sub => .ok (numeric_op l r (· - ·) f64_sub)
    | .Mul => .ok (numeric_op l r (· * ·) f64_mul)
    | .Div =>
      match l, r with
      | .Int64 a, .Int64 b =>
        if b = 0 then .error (.SqlError "Division by zero")
        else .ok (.Float64 (f64_div (i64_to_f64 a) (i64_to_f64 b)))
      | _, _ => .ok (numeric_op l r (fun a b => Int.tdiv a b) f64_div)
    | .Mod => .ok (numeric_op l r rust_i64_rem f64_rem)
    | .Eq => .ok (.Boolean (scalar_eq l r))
    | .NotEq => .ok (.Boolean (!scalar_eq l r))
    | .Lt => .ok (.Boolean (scalar_cmp l r == .lt))
    | .LtEq => .ok (.Boolean (scalar_cmp l r != .gt))
    | .Gt => .ok (.Boolean (scalar_cmp l r == .gt))
    | .GtEq => .ok (.Boolean (scalar_cmp l r != .lt))
    | .And => .ok (.Boolean (is_truthy l && is_truthy r))
    | .Or => .ok (.Boolean (is_truthy l || is_truthy r))
    | .Concat => .ok (.Utf8 (scalar_to_string l ++ scalar_to_string r))

/-- Unary operator evaluation (src `eval_unary_op`). -/
def eval_unary_op (op : UnaryOp) (v : ScalarValue) : Except PivotError ScalarValue :=
  match op with
  | .Neg =>
    match v with
    | .Int64 i => .ok (.Int64 (-i))
    | .Float64 f => .ok (.Float64 (-f))
    | _ => .ok .Null
  | .Not =>
    match v with
    | .Boolean b => .ok (.Boolean (!b))
    | .Null => .ok .Null
    | _ => .ok (.Boolean (!is_truthy v))

/-- Literal evaluation (src `eval_literal`).  The `n as i32` narrowing on
interval fields is not modelled (values stay exact). -/
def eval_literal (lit : LiteralValue) : ScalarValue :=
  match lit with
  | .Integer n => .Int64 n
  | .Float f => .Float64 f
  | .String s => .Utf8 s
  | .Boolean b => .Boolean b
  | .Null => .Null
  | .Interval value unit =>
    let n := (rust_parse_i64 value.data).getD 0
    let u := rust_to_uppercase unit
    let iv : IntervalValue :=
      if u == "YEAR" || u == "YEARS" then ⟨n, 0, 0, 0⟩
      else if u == "MONTH" || u == "MONTHS" then ⟨0, n, 0, 0⟩
      else if u == "DAY" || u == "DAYS" then ⟨0, 0, n, 0⟩
      else if u == "HOUR" || u == "HOURS" then ⟨0, 0, 0, n * 3600000000⟩
      else if u == "MINUTE" || u == "MINUTES" then ⟨0, 0, 0, n * 60000000⟩
      else if u == "SECOND" || u == "SECONDS" then ⟨0, 0, 0, n * 1000000⟩
      else IntervalValue.zero
    .Interval iv

/-! ## Pipeline stages (src/sql/executor.rs)

The recursive expression evaluator `eval_expr` walks the whole engine
(functions tables, subqueries, CTE maps).  The stages below only invoke it
through the row-level call sites the source passes it to, so it enters the
model as an explicit oracle parameter of type `EvalExpr`: the caller's
`eval_expr` specialised to the column descriptors / CTE map in scope at
that call site.  Every theorem about these stages quantifies over the
oracle. -/

/-- Row-context expression evaluation oracle (stands for
`eval_expr(expr, row, cols, None, ctes)` with cols/ctes fixed by the call
site). -/
abbrev EvalExpr := Expr → List ScalarValue → Except PivotError ScalarValue

/-- Filtering loop of `apply_where`: keep exactly the rows whose predicate
value is truthy; evaluation errors abort the statement. -/
def where_filter (evalE : EvalExpr) (e : Expr) :
    List (List ScalarValue) → Except PivotError (List (List ScalarValue))
  | [] => .ok []
  | row :: rest =>
    match evalE e row with
    | .error err => .error err
    | .ok v =>
      match where_filter evalE e rest with
      | .error err => .error err
      | .ok kept => .ok (if is_truthy v then row :: kept else kept)

/-- Model of `SqlEngine::apply_where`: no clause keeps everything; otherwise only
truthy rows survive. -/
def apply_where (evalE : EvalExpr) (rs : RowSet) (where_clause : Option Expr) :
    Except PivotError RowSet :=
  match where_clause with
  | none => .ok rs
  | some e =>
    match where_filter evalE e rs.rows with
    | .error err => .error err
    | .ok kept => .ok { cols := rs.cols, rows := kept }

/-- Rust `i64 as usize` (wrapping into 0 .. 2^64-1; a negative OFFSET
therefore becomes astronomically large). -/
def usize_of_i64 (n : Int) : Nat := (Int.emod n 18446744073709551616).toNat

/-- Model of `SqlEngine::apply_limit_offset`: LIMIT / OFFSET expressions are
evaluated in an empty row context; non-Int64 results make LIMIT absent and
OFFSET zero.  The slice start clamps the offset to the row count. -/
def apply_limit_offset (evalE : EvalExpr) (rs : RowSet)
    (limit offset : Option Expr) : Except PivotError RowSet :=
  match (match offset with
         | some off_expr =>
           match evalE off_expr [] with
           | .error err => Except.error err
           | .ok (.Int64 n) => Except.ok (usize_of_i64 n)
           | .ok _ => Except.ok 0
         | none => Except.ok 0 : Except PivotError Nat) with
  | .error err => .error err
  | .ok offset_val =>
    match (match limit with
           | some lim_expr =>
             match evalE lim_expr [] with
             | .error err => Except.error err
             | .ok (.Int64 n) => Except.ok (some (usize_of_i64 n))
             | .ok _ => Except.ok none
           | none => Except.ok none : Except PivotError (Option Nat)) with
    | .error err => .error err
    | .ok limit_val =>
      if offset_val > 0 ∨ limit_val.isSome then
        let start := min offset_val rs.rows.length
        let stop :=
          match limit_val with
          | some lim => min (start + lim) rs.rows.length
          | none => rs.rows.length
        .ok { cols := rs.cols, rows := (rs.rows.drop start).take (stop - start) }
      else .ok rs

/-- Row equality used by `dedup_rowset` (the Rust code compares
`format!("{:?}", a) == format!("{:?}", b)` per component; Debug rendering
is injective on these constructors, so this is structural equality — and
the componentwise `zip` TRUNCATES to the shorter row, exactly as
`Iterator::zip` does). -/
def row_dbg_eq (a b : List ScalarValue) : Bool :=
  (a.zip b).all fun p => p.1 == p.2

/-- Retain loop of `dedup_rowset`: a row is kept iff no previously KEPT row
is componentwise Debug-equal to it. -/
def dedup_rows (rows : List (List ScalarValue)) (seen : List (List ScalarValue)) :
    List (List ScalarValue) :=
  match rows with
  | [] => []
  | row :: rest =>
    if seen.any (fun s => row_dbg_eq s row) then dedup_rows rest seen
    else row :: dedup_rows rest (seen ++ [row])

/-- Model of `dedup_rowset` (src/sql/executor.rs). -/
def dedup_rowset (rs : RowSet) : RowSet :=
  { cols := rs.cols, rows := dedup_rows rs.rows [] }

/-- Right-hand accumulation of non-ALL UNION: push each right row unless an
equal row is already in the accumulated result (Vec PartialEq, i.e.
structural equality). -/
def union_push (acc : List (List ScalarValue)) :
    List (List ScalarValue) → List (List ScalarValue)
  | [] => acc
  | row :: rest =>
    if acc.contains row then union_push acc rest
    else union_push (acc ++ [row]) rest

/-- Model of `SqlEngine::exec_set_op` on the two already-materialised sides (the
source first executes `stmt.left` / `stmt.right` recursively; those row
sets are taken as inputs here).  The output schema is the left side's.
Note: the UNION branch contains a nested `if !stmt.all` that is trivially
true there, and the EXCEPT branch never dedups at all. -/
def exec_set_op (op : SetOp) (all : Bool) (left right : RowSet) : RowSet :=
  match op with
  | .Union =>
    if all then { cols := left.cols, rows := left.rows ++ right.rows }
    else
      let pushed := union_push left.rows right.rows
      dedup_rowset { cols := left.cols, rows := pushed }
  | .Intersect =>
    let base : RowSet :=
      { cols := left.cols, rows := left.rows.filter fun row => right.rows.contains row }
    if all then base else dedup_rowset base
  | .Except =>
    { cols := left.cols, rows := left.rows.filter fun row => !right.rows.contains row }

/-! ## Aggregation stage (src/sql/executor.rs, `exec_group_by` and
`eval_expr_agg`) -/

/-- Evaluate an argument expression once per group row index, in input
order, aborting on the first evaluation error (the per-index `?` of the
Rust aggregate loops). -/
def eval_at_indices (evalE : EvalExpr) (a : Expr) (all_rows : List (List ScalarValue)) :
    List Nat → Except PivotError (List ScalarValue)
  | [] => .ok []
  | idx :: rest =>
    match all_rows.get? idx with
    | none => .error (.IndexOutOfBounds "panic")
    | some row =>
      match evalE a row with
      | .error e => .error e
      | .ok v =>
        match eval_at_indices evalE a all_rows rest with
        | .error e => .error e
        | .ok vs => .ok (v :: vs)

/-- Running sums of the SUM loop, separated by carrier (the loop adds the
Int64 and Float64 contributions into independent accumulators). -/
def sum_ints (vals : List ScalarValue) : Int :=
  vals.foldl (fun acc v => match v with | .Int64 i => acc + i | _ => acc) 0

def sum_floats (vals : List ScalarValue) : F64 :=
  vals.foldl (fun acc v => match v with | .Float64 f => f64_add acc f | _ => acc) 0

def has_numeric (vals : List ScalarValue) : Bool :=
  vals.any fun v => match v with | .Int64 _ => true | .Float64 _ => true | _ => false

def has_float (vals : List ScalarValue) : Bool :=
  vals.any fun v => match v with | .Float64 _ => true | _ => false

def count_numeric (vals : List ScalarValue) : Nat :=
  (vals.filter fun v => match v with | .Int64 _ => true | .Float64 _ => true | _ => false).length

/-- AVG numerator: every numeric value promoted into the float carrier. -/
def sum_all_numeric (vals : List ScalarValue) : F64 :=
  vals.foldl (fun acc v =>
    match v with
    | .Int64 i => f64_add acc (i64_to_f64 i)
    | .Float64 f => f64_add acc f
    | _ => acc) 0

/-- MIN / MAX fold (src keeps the incoming value when `scalar_cmp` returns
the wanted ordering against the current best; NULLs are skipped). -/
def fold_best (vals : List ScalarValue) (wanted : Ordering) : ScalarValue :=
  (vals.foldl (fun best v =>
    match v with
    | .Null => best
    | _ =>
      match best with
      | none => some v
      | some cur => some (if scalar_cmp v cur == wanted then v else cur)) none).getD .Null

/-- Numeric values collected into the float carrier for STDDEV/VARIANCE. -/
def collect_floats (vals : List ScalarValue) : List F64 :=
  vals.filterMap fun v =>
    match v with
    | .Int64 i => some (i64_to_f64 i)
    | .Float64 f => some f
    | _ => none

/-- Stand-in for f64 square root (uninterpreted; never evaluated by a
proof in this file). -/
def f64_sqrt (f : F64) : F64 := f

/-- Mean and variance over the float stand-in carrier, with the source's
denominator choice: population uses n, sample uses `max n 2 - 1`. -/
def variance_of (xs : List F64) (population : Bool) : F64 :=
  let n := xs.length
  let mean := f64_div (xs.foldl f64_add 0) (i64_to_f64 (n : Int))
  let sq := xs.foldl (fun acc v => f64_add acc (f64_mul (f64_sub v mean) (f64_sub v mean))) 0
  f64_div sq (i64_to_f64 ((if population then n else max n 2 - 1) : Int))

/-- Aggregate-name dispatch of `eval_expr_agg` (the body of its
`Expr::Function { over: None }` arm, factored out; `expr` is the whole
function-call node, used by the non-aggregate fallback that evaluates it
against the group's first row). -/
def eval_agg_function (evalE : EvalExpr) (expr : Expr) (name : String) (args : List Expr)
    (all_rows : List (List ScalarValue)) (group_indices : List Nat) :
    Except PivotError ScalarValue :=
  let agg_name := rust_to_uppercase name
  if agg_name == "COUNT" then
    match args with
    | [.Wildcard] => .ok (.Int64 (group_indices.length : Int))
    | _ =>
      match args.get? 0 with
      | none => .error (.IndexOutOfBounds "panic")
      | some a0 =>
        match eval_at_indices evalE a0 all_rows group_indices with
        | .error e => .error e
        | .ok vals => .ok (.Int64 (((vals.filter (· != .Null)).length : Int)))
  else if agg_name == "SUM" then
    match args.get? 0 with
    | none => .error (.IndexOutOfBounds "panic")
    | some a0 =>
      match eval_at_indices evalE a0 all_rows group_indices with
      | .error e => .error e
      | .ok vals =>
        if !has_numeric vals then .ok .Null
        else if has_float vals then
          .ok (.Float64 (f64_add (sum_floats vals) (i64_to_f64 (sum_ints vals))))
        else .ok (.Int64 (sum_ints vals))
  else if agg_name == "AVG" then
    match args.get? 0 with
    | none => .error (.IndexOutOfBounds "panic")
    | some a0 =>
      match eval_at_indices evalE a0 all_rows group_indices with
      | .error e => .error e
      | .ok vals =>
        if count_numeric vals == 0 then .ok .Null
        else .ok (.Float64 (f64_div (sum_all_numeric vals)
          (i64_to_f64 (count_numeric vals : Int))))
  else if agg_name == "MIN" then
    match args.get? 0 with
    | none => .error (.IndexOutOfBounds "panic")
    | some a0 =>
      match eval_at_indices evalE a0 all_rows group_indices with
      | .error e => .error e
      | .ok vals => .ok (fold_best vals .lt)
  else if agg_name == "MAX" then
    match args.get? 0 with
    | none => .error (.IndexOutOfBounds "panic")
    | some a0 =>
      match eval_at_indices evalE a0 all_rows group_indices with
      | .error e => .error e
      | .ok vals => .ok (fold_best vals .gt)
  else if agg_name == "STRING_AGG" || agg_name == "GROUP_CONCAT"
      || agg_name == "LISTAGG" then
    match (if args.length > 1 then
             match args.get? 1 with
             | none => Except.error (PivotError.IndexOutOfBounds "panic")
             | some a1 =>
               match evalE a1 (all_rows.headD []) with
               | .error e => Except.error e
               | .ok (.Utf8 s) => Except.ok s
               | .ok _ => Except.ok ","
           else Except.ok "," : Except PivotError String) with
    | .error e => .error e
    | .ok sep =>
      match args.get? 0 with
      | none => .error (.IndexOutOfBounds "panic")
      | some a0 =>
        match eval_at_indices evalE a0 all_rows group_indices with
        | .error e => .error e
        | .ok vals =>
          .ok (.Utf8 (String.intercalate sep
            ((vals.filter (· != .Null)).map scalar_display)))
  else if agg_name == "ARRAY_AGG" then
    match args.get? 0 with
    | none => .error (.IndexOutOfBounds "panic")
    | some a0 =>
      match eval_at_indices evalE a0 all_rows group_indices with
      | .error e => .error e
      | .ok vals =>
        .ok (.Utf8 ("[" ++ String.intercalate ", " (vals.map scalar_display) ++ "]"))
  else if agg_name == "STDDEV" || agg_name == "STDEV"
      || agg_name == "STDDEV_SAMP" || agg_name == "STDDEV_POP" then
    match args.get? 0 with
    | none => .error (.IndexOutOfBounds "panic")
    | some a0 =>
      match eval_at_indices evalE a0 all_rows group_indices with
      | .error e => .error e
      | .ok vals =>
        let xs := collect_floats vals
        if xs.isEmpty then .ok .Null
        else .ok (.Float64 (f64_sqrt (variance_of xs (agg_name == "STDDEV_POP"))))
  else if agg_name == "VARIANCE" || agg_name == "VAR_SAMP"
      || agg_name == "VAR_POP" then
    match args.get? 0 with
    | none => .error (.IndexOutOfBounds "panic")
    | some a0 =>
      match eval_at_indices evalE a0 all_rows group_indices with
      | .error e => .error e
      | .ok vals =>
        let xs := collect_floats vals
        if xs.isEmpty then .ok .Null
        else .ok (.Float64 (variance_of xs false))
  else
    match group_indices.head? with
    | some first_idx =>
      match all_rows.get? first_idx with
      | none => .error (.IndexOutOfBounds "panic")
      | some row => evalE expr row
    | none => .ok .Null

/-- Model of `SqlEngine::eval_expr_agg`: aggregate calls fold over the group's row
indices; BinaryOp / UnaryOp / Cast recurse in aggregate mode; everything
else (including `Case` and non-aggregate function calls) evaluates against
the FIRST row of the group, or yields NULL for an empty group.  `_cols`
and `_group_exprs` mirror parameters the source carries but never reads at
this level (column resolution lives inside the `evalE` oracle). -/
def eval_expr_agg (evalE : EvalExpr) (expr : Expr) (all_rows : List (List ScalarValue))
    (group_indices : List Nat) (_cols : List Col) (_group_exprs : List Expr) :
    Except PivotError ScalarValue :=
  match expr with
  | .Function name args _distinct none =>
    eval_agg_function evalE (.Function name args _distinct none) name args
      all_rows group_indices
  | .BinaryOp left op right =>
    match eval_expr_agg evalE left all_rows group_indices _cols _group_exprs with
    | .error e => .error e
    | .ok l =>
      match eval_expr_agg evalE right all_rows group_indices _cols _group_exprs with
      | .error e => .error e
      | .ok r => eval_binary_op op l r
  | .UnaryOp op inner =>
    match eval_expr_agg evalE inner all_rows group_indices _cols _group_exprs with
    | .error e => .error e
    | .ok v => eval_unary_op op v
  | .Cast inner data_type =>
    match eval_expr_agg evalE inner all_rows group_indices _cols _group_exprs with
    | .error e => .error e
    | .ok v => .ok (cast_value v data_type)
  | _ =>
    match group_indices.head? with
    | some first_idx =>
      match all_rows.get? first_idx with
      | none => .error (.IndexOutOfBounds "panic")
      | some row => evalE expr row
    | none => .ok .Null

/-- Model of `SqlEngine::eval_agg_row`: one output cell per projection expression. -/
def eval_agg_row (evalE : EvalExpr) (out_exprs : List (Expr × Option String))
    (all_rows : List (List ScalarValue)) (group_indices : List Nat) (cols : List Col)
    (_key_vals : List ScalarValue) (group_exprs : List Expr) :
    Except PivotError (List ScalarValue) :=
  match out_exprs with
  | [] => .ok []
  | (e, _alias) :: rest =>
    match eval_expr_agg evalE e all_rows group_indices cols group_exprs with
    | .error err => .error err
    | .ok v =>
      match eval_agg_row evalE rest all_rows group_indices cols _key_vals group_exprs with
      | .error err => .error err
      | .ok vs => .ok (v :: vs)

/-- Default display name of a projection expression (src
`expr_display_name`). -/
def expr_display_name (e : Expr) : String :=
  match e with
  | .Column _ name => name
  | .Function name _ _ _ => rust_to_lowercase name
  | .Literal lit =>
    (match lit with
     | .Integer n => toString n
     | .Float f => f64_plain_render f
     | .String s => s
     | .Boolean b => toString b
     | .Null => "NULL"
     | .Interval value unit => value ++ " " ++ unit)
  | .Cast _ data_type => "cast(" ++ data_type_display data_type ++ ")"
  | .BinaryOp left op right =>
    let op_str :=
      match op with
      | .Add => "+" | .Sub => "-" | .Mul => "*" | .Div => "/" | .Mod => "%"
      | _ => "op"
    expr_display_name left ++ op_str ++ expr_display_name right
  | _ => "expr"

/-- Output column / expression list of `exec_group_by`: wildcard expands the
input columns, expressions get alias-or-display names, table wildcards are
dropped. -/
def group_out_items (in_cols : List Col) (items : List SelectItem) :
    List Col × List (Expr × Option String) :=
  match items with
  | [] => ([], [])
  | item :: rest =>
    let tail := group_out_items in_cols rest
    match item with
    | .Wildcard =>
      (in_cols.map id ++ tail.1,
       in_cols.map (fun col => (Expr.Column col.table col.name, none)) ++ tail.2)
    | .Expr e aliasName =>
      let col_name := aliasName.getD (expr_display_name e)
      ({ table := none, name := col_name, dtype := DataType.Utf8 } :: tail.1,
       (e, aliasName) :: tail.2)
    | .TableWildcard _ => tail

/-- Keyed group accumulation: HashMap entry update plus first-appearance
order, rendered as an insertion-ordered association list. -/
def group_insert (groups : List (List String × List Nat)) (key : List String)
    (idx : Nat) : List (List String × List Nat) :=
  match groups with
  | [] => [(key, [idx])]
  | (k, idxs) :: rest =>
    if k == key then (k, idxs ++ [idx]) :: rest
    else (k, idxs) :: group_insert rest key idx

/-- Group key of one row: each GROUP BY expression rendered through
`scalar_to_key`; an evaluation ERROR silently becomes the empty string
(the source's `.ok() ... unwrap_or_default()`). -/
def group_key_of_row (evalE : EvalExpr) (group_by : List Expr)
    (row : List ScalarValue) : List String :=
  group_by.map fun e =>
    match evalE e row with
    | .ok v => scalar_to_key v
    | .error _ => ""

/-- Row loop of `build_groups`. -/
def build_groups_go (evalE : EvalExpr) (group_by : List Expr) :
    List (List ScalarValue) → Nat → List (List String × List Nat) →
    List (List String × List Nat)
  | [], _, groups => groups
  | row :: rest, idx, groups =>
    build_groups_go evalE group_by rest (idx + 1)
      (group_insert groups (group_key_of_row evalE group_by row) idx)

/-- Partition rows into key groups in first-appearance order. -/
def build_groups (evalE : EvalExpr) (group_by : List Expr)
    (rows : List (List ScalarValue)) : List (List String × List Nat) :=
  build_groups_go evalE group_by rows 0 []

/-- Per-group output loop of `exec_group_by`: HAVING runs in group context
first; a non-truthy result drops the group, then the projection row is
produced. -/
def groups_output (evalE : EvalExpr) (having : Option Expr)
    (out_exprs : List (Expr × Option String)) (all_rows : List (List ScalarValue))
    (cols : List Col) (group_exprs : List Expr) :
    List (List String × List Nat) → Except PivotError (List (List ScalarValue))
  | [] => .ok []
  | (_key, indices) :: rest =>
    match (match having with
           | some having_expr =>
             match eval_expr_agg evalE having_expr all_rows indices cols group_exprs with
             | .error e => Except.error e
             | .ok v => Except.ok (is_truthy v)
           | none => Except.ok true : Except PivotError Bool) with
    | .error e => .error e
    | .ok passes =>
      if !passes then groups_output evalE having out_exprs all_rows cols group_exprs rest
      else
        match eval_agg_row evalE out_exprs all_rows indices cols [] group_exprs with
        | .error e => .error e
        | .ok result_row =>
          match groups_output evalE having out_exprs all_rows cols group_exprs rest with
          | .error e => .error e
          | .ok rows => .ok (result_row :: rows)

/-- Model of `SqlEngine::exec_group_by`: with an empty GROUP BY the whole input is
one group — including the empty input — and exactly one output row is
produced (HAVING is not consulted on that path); otherwise rows are
bucketed by rendered key tuples in first-appearance order. -/
def exec_group_by (evalE : EvalExpr) (rs : RowSet) (stmt : SelectStatement) :
    Except PivotError RowSet :=
  let out := group_out_items rs.cols stmt.columns
  if stmt.group_by.isEmpty then
    let group_rows := List.range rs.rows.length
    match eval_agg_row evalE out.2 rs.rows group_rows rs.cols [.Null] [] with
    | .error e => .error e
    | .ok result_row => .ok { cols := out.1, rows := [result_row] }
  else
    let groups := build_groups evalE stmt.group_by rs.rows
    match groups_output evalE stmt.having out.2 rs.rows rs.cols stmt.group_by groups with
    | .error e => .error e
    | .ok rows => .ok { cols := out.1, rows := rows }

mutual
/-- Aggregate-call detection inside one expression (src
`expr_has_aggregate`); the CASE arm walks operand, when-clauses and else
branch. -/
def expr_has_aggregate (e : Expr) : Bool :=
  match e with
  | .Function name _ _ none =>
    let u := rust_to_uppercase name
    u == "COUNT" || u == "SUM" || u == "AVG" || u == "MIN" || u == "MAX"
      || u == "STRING_AGG" || u == "GROUP_CONCAT" || u == "LISTAGG"
      || u == "ARRAY_AGG" || u == "STDDEV" || u == "STDEV" || u == "STDDEV_SAMP"
      || u == "STDDEV_POP" || u == "VARIANCE" || u == "VAR_SAMP" || u == "VAR_POP"
  | .BinaryOp left _ right => expr_has_aggregate left || expr_has_aggregate right
  | .UnaryOp _ inner => expr_has_aggregate inner
  | .Cast inner _ => expr_has_aggregate inner
  | .Case operand when_clauses else_clause =>
    (match operand with | some oe => expr_has_aggregate oe | none => false)
      || when_pairs_have_aggregate when_clauses
      || (match else_clause with | some ee => expr_has_aggregate ee | none => false)
  | _ => false

/-- Helper walking the (condition, result) pairs of a CASE expression. -/
def when_pairs_have_aggregate : List (Expr × Expr) → Bool
  | [] => false
  | (c, t) :: rest =>
    expr_has_aggregate c || expr_has_aggregate t || when_pairs_have_aggregate rest
end

/-- Aggregate detection over the SELECT list (src
`select_items_have_aggregate`); this predicate routes the pipeline into
`exec_group_by` whenever it is true or GROUP BY is non-empty. -/
def select_items_have_aggregate (items : List SelectItem) : Bool :=
  items.any fun item =>
    match item with
    | .Expr e _ => expr_has_aggregate e
    | _ => false

/-! ## Concrete instances used by witnesses and counterexamples -/

/-- Oracle instance for concrete runs: the `Literal` arm of the source
`eval_expr` (literals evaluate through `eval_literal` regardless of the
row); the theorems below only ever feed it literal expressions. -/
def lit_eval : EvalExpr := fun e _row =>
  match e with
  | .Literal lit => .ok (eval_literal lit)
  | _ => .ok .Null

/-- A one-column utf8 table, empty. -/
def utf8_table : DataStore := DataStore.new ⟨[⟨"a", DataType.Utf8, true⟩]⟩

/-- A (utf8, date) table, empty. -/
def date_table : DataStore :=
  DataStore.new ⟨[⟨"a", DataType.Utf8, true⟩, ⟨"b", DataType.Date, true⟩]⟩

/-- Decidable equality for `Except` results (not derived by core). -/
instance {e a : Type} [DecidableEq e] [DecidableEq a] : DecidableEq (Except e a) := fun x y =>
  match x, y with
  | .ok v, .ok w =>
    if h : v = w then isTrue (by rw [h]) else isFalse (fun hh => h (Except.ok.inj hh))
  | .error v, .error w =>
    if h : v = w then isTrue (by rw [h]) else isFalse (fun hh => h (Except.error.inj hh))
  | .ok _, .error _ => isFalse (fun hh => Except.noConfusion hh)
  | .error _, .ok _ => isFalse (fun hh => Except.noConfusion hh)

/-- Column-wise invariant of one storage against one schema entry. -/
def col_ok (rc : Nat) (cd : ColumnDef) (cs : ColumnStorage) : Bool :=
  selected_len cs cd.data_type == rc && cs.nullmask.len == rc

/-! # Helper lemmas -/

theorem wfb_eq_col_ok (ds : DataStore) :
    wfb ds = (ds.columns.length == ds.schema.columns.length &&
      (ds.schema.columns.zip ds.columns).all fun p => col_ok ds.row_count p.1 p.2) := by
  simp [wfb, col_ok]

/-- Indexed characterization of an all-true predicate over a zip. -/
theorem zip_all_iff_index {α β : Type} (p : α → β → Bool) :
    ∀ (l : List α) (m : List β),
      ((l.zip m).all (fun q => p q.1 q.2) = true) ↔
      (∀ i a b, l.get? i = some a → m.get? i = some b → p a b = true) := by
  intro l
  induction l with
  | nil => intro m; simp
  | cons x xs ih =>
    intro m
    cases m with
    | nil => simp
    | cons y ys =>
      simp only [List.zip_cons_cons, List.all_cons, Bool.and_eq_true, ih ys]
      constructor
      · rintro ⟨hxy, hrest⟩ i a b ha hb
        cases i with
        | zero => simp at ha hb; subst ha; subst hb; exact hxy
        | succ n => exact hrest n a b ha hb
      · intro h
        refine ⟨h 0 x y rfl rfl, fun i a b ha hb => h (i + 1) a b ha hb⟩

theorem get?_eraseIdx {α : Type} :
    ∀ (l : List α) (i j : Nat),
      (l.eraseIdx i).get? j = if j < i then l.get? j else l.get? (j + 1) := by
  intro l
  induction l with
  | nil => intro i j; cases i <;> cases j <;> simp [List.eraseIdx]
  | cons x xs ih =>
    intro i j
    cases i with
    | zero => simp [List.eraseIdx]
    | succ n =>
      cases j with
      | zero => simp [List.eraseIdx]
      | succ m => simpa [List.eraseIdx, Nat.succ_lt_succ_iff] using ih n m

/-- The WHERE loop, on success, is exactly a filter by truthiness of the
evaluated predicate. -/
theorem where_filter_ok (evalE : EvalExpr) (e : Expr) :
    ∀ (rows kept : List (List ScalarValue)),
      where_filter evalE e rows = .ok kept →
      kept = rows.filter fun row =>
        match evalE e row with
        | .ok v => is_truthy v
        | .error _ => false := by
  intro rows
  induction rows with
  | nil =>
    intro kept h
    simp [where_filter] at h
    subst h
    simp
  | cons row rest ih =>
    intro kept h
    simp only [where_filter] at h
    cases hv : evalE e row with
    | error err => rw [hv] at h; exact absurd h (by simp)
    | ok v =>
      rw [hv] at h
      cases hrest : where_filter evalE e rest with
      | error err => rw [hrest] at h; exact absurd h (by simp)
      | ok kept2 =>
        rw [hrest] at h
        simp only [Except.ok.injEq] at h
        subst h
        rw [List.filter_cons]
        rw [← ih kept2 hrest]
        cases ht : is_truthy v <;> simp [hv, ht]

/-! # Claim theorems -/

/-- Evaluation lemma: the year search at day 0 stops immediately at 1970.
(The well-founded recursion does not reduce definitionally, so the
concrete theorems unfold it one step by hand.) -/
theorem find_year_fwd_zero : find_year_fwd 0 1970 = (1970, 0) := by
  unfold find_year_fwd
  split
  · rfl
  · next h => exact absurd (show (0 : Int) < days_in_year 1970 by decide) (by omega)

/-- Evaluation lemma: the month search at remainder 0 stops at month 1. -/
theorem find_month_zero : find_month 0 1970 1 = (1, 0) := by
  unfold find_month
  split
  · rfl
  · next h => exact absurd (show (0 : Int) < (days_in_month 1970 1 : Int) by decide) (by omega)

/-- Evaluation lemma: day 0 is 1970-01-01. -/
theorem epoch_days_to_ymd_zero : epoch_days_to_ymd 0 = (1970, 1, 1) := by
  unfold epoch_days_to_ymd
  rw [if_neg (by omega)]
  rw [find_year_fwd_zero]
  dsimp only
  rw [find_month_zero]
  rfl

/-- Evaluation lemma: -1 microseconds renders (with truncating seconds
division) as 1970-01-01 00:00:00.000001. -/
theorem ts_string_neg_one :
    epoch_micros_to_ts_string (-1) = "1970-01-01 00:00:00.000001" := by
  unfold epoch_micros_to_ts_string
  dsimp only
  rw [show ((-1 : Int).tdiv 1000000) = 0 from by decide]
  rw [show ((0 : Int).ediv 86400) = 0 from by decide]
  rw [epoch_days_to_ymd_zero]
  decide

/-- C2 (code_bug evaluation): the display/parse round-trip of the
timestamp codec fails at t = -1 microseconds (1969-12-31 23:59:59.999999,
inside the claimed 1901..2100 range): `epoch_micros_to_ts_string` computes
its seconds with truncating division, so -1 renders as
"1970-01-01 00:00:00.000001", which parses back to +1. -/
theorem ts_round_trip_fails_at_negative_micros :
    timestamp_string_to_epoch_micros (epoch_micros_to_ts_string (-1)) = some 1 ∧
    epoch_micros_to_ts_string (-1) = "1970-01-01 00:00:00.000001" := by
  refine ⟨?_, ts_string_neg_one⟩
  rw [ts_string_neg_one]
  decide

/-- C7 counterexample: CAST of a time value to int64 is NULL, not the
claimed identity (at t = 5 microseconds past midnight). -/
theorem cast_time_to_int64_not_identity :
    try_cast_value (.Time 5) .Int64 = .Null ∧
    try_cast_value (.Time 5) .Int64 ≠ .Int64 5 := by
  exact ⟨by decide, by decide⟩

/-- C7 amended: casting a time value to int64 always yields NULL, under
CAST and TRY_CAST alike (`to_int64` has no Time arm, so time values hit
the wildcard). -/
theorem cast_time_to_int64_is_null (t : Int) :
    try_cast_value (.Time t) .Int64 = .Null ∧
    cast_value (.Time t) .Int64 = .Null := by
  constructor <;> simp [cast_value, try_cast_value, to_int64]

/-- C4 counterexample: concatenating a non-null string with NULL yields
NULL, not the string (the NULL-propagation preamble of `eval_binary_op`
fires before the Concat arm). -/
theorem concat_with_null_is_null :
    eval_binary_op .Concat (.Utf8 "a") .Null = .ok .Null ∧
    eval_binary_op .Concat (.Utf8 "a") .Null ≠ .ok (.Utf8 "a") := by
  exact ⟨by decide, by decide⟩

/-- C4 amended: `\|\|` concatenates the display renderings (NULL would
render empty) only when BOTH operands are non-null; any NULL operand makes
the result NULL through the standard NULL propagation. -/
theorem concat_semantics (l r : ScalarValue) :
    (l ≠ .Null → r ≠ .Null →
      eval_binary_op .Concat l r = .ok (.Utf8 (scalar_to_string l ++ scalar_to_string r))) ∧
    (l = .Null ∨ r = .Null → eval_binary_op .Concat l r = .ok .Null) := by
  constructor
  · intro hl hr
    unfold eval_binary_op
    rw [if_neg (by tauto)]
  · intro h
    unfold eval_binary_op
    rw [if_pos h]

/-- C4 witness. -/
theorem concat_semantics_witness :
    eval_binary_op .Concat (.Utf8 "a") (.Int64 5) = .ok (.Utf8 "a5") ∧
    eval_binary_op .Concat (.Int64 7) .Null = .ok .Null := by
  have h1 := (concat_semantics (.Utf8 "a") (.Int64 5)).1 (by decide) (by decide)
  have h2 := (concat_semantics (.Int64 7) .Null).2 (Or.inr rfl)
  exact ⟨by rw [h1]; decide, h2⟩

/-- C8 counterexample: `=` on two NULLs evaluates to NULL, not to the
non-null boolean false the claim states. -/
theorem null_eq_null_is_null :
    eval_binary_op .Eq .Null .Null = .ok .Null ∧
    eval_binary_op .Eq .Null .Null ≠ .ok (.Boolean false) := by
  exact ⟨by decide, by decide⟩

/-- C8 amended: equality with ANY null operand (including both null)
yields NULL — the NULL-propagation preamble intercepts before the Eq arm —
while the `scalar_eq` helper itself would treat two NULLs as unequal but
is only reached with non-null operands. -/
theorem eq_null_semantics :
    (∀ l r : ScalarValue, l = .Null ∨ r = .Null → eval_binary_op .Eq l r = .ok .Null) ∧
    scalar_eq .Null .Null = false := by
  constructor
  · intro l r h
    unfold eval_binary_op
    rw [if_pos h]
  · decide

/-- C8 witness. -/
theorem eq_null_semantics_witness :
    eval_binary_op .Eq .Null .Null = .ok .Null :=
  eq_null_semantics.1 .Null .Null (Or.inl rfl)

/-- C6 counterexample: a predicate evaluating to the non-boolean Int64 1
(e.g. `WHERE 1`) KEEPS the row — the claim says non-boolean values are
treated as non-matching and removed. -/
theorem where_nonboolean_truthy_keeps_row :
    lit_eval (.Literal (.Integer 1)) [.Int64 7] = .ok (.Int64 1) ∧
    apply_where lit_eval ⟨[], [[.Int64 7]]⟩ (some (.Literal (.Integer 1)))
      = .ok ⟨[], [[.Int64 7]]⟩ := by
  exact ⟨rfl, rfl⟩

/-- C6 amended: a row survives `apply_where` exactly when the predicate
evaluates to a TRUTHY value — boolean true, non-zero integer or float,
non-empty string, or any date/time/timestamp/interval value — while NULL,
false, zero and the empty string are removed. -/
theorem where_keeps_exactly_truthy_rows :
    (∀ (evalE : EvalExpr) (rs : RowSet) (e : Expr) (out : RowSet),
      apply_where evalE rs (some e) = .ok out →
      out.cols = rs.cols ∧
      out.rows = rs.rows.filter fun row =>
        match evalE e row with
        | .ok v => is_truthy v
        | .error _ => false) ∧
    is_truthy (.Boolean true) = true ∧
    is_truthy (.Int64 1) = true ∧
    is_truthy (.Float64 1) = true ∧
    is_truthy (.Utf8 "x") = true ∧
    is_truthy (.Date 0) = true ∧
    is_truthy .Null = false ∧
    is_truthy (.Boolean false) = false ∧
    is_truthy (.Int64 0) = false ∧
    is_truthy (.Utf8 "") = false := by
  refine ⟨?_, rfl, by decide, by decide, by decide, rfl, rfl, rfl, by decide, by decide⟩
  intro evalE rs e out h
  unfold apply_where at h
  dsimp only at h
  cases hf : where_filter evalE e rs.rows with
  | error err => rw [hf] at h; exact absurd h (by simp)
  | ok kept =>
    rw [hf] at h
    simp only [Except.ok.injEq] at h
    subst h
    exact ⟨rfl, where_filter_ok evalE e rs.rows kept hf⟩

/-- C6 witness. -/
theorem where_keeps_exactly_truthy_rows_witness :
    (⟨[], [[ScalarValue.Int64 7], [ScalarValue.Int64 0]]⟩ : RowSet).rows.filter
        (fun row =>
          match lit_eval (.Literal (.Integer 1)) row with
          | .ok v => is_truthy v
          | .error _ => false) =
      [[ScalarValue.Int64 7], [ScalarValue.Int64 0]] ∧
    (apply_where lit_eval ⟨[], [[.Int64 7], [.Int64 0]]⟩
        (some (.Literal (.Integer 1)))) = .ok ⟨[], [[.Int64 7], [.Int64 0]]⟩ := by
  have h := (where_keeps_exactly_truthy_rows.1 lit_eval
    ⟨[], [[.Int64 7], [.Int64 0]]⟩ (.Literal (.Integer 1))
    ⟨[], [[.Int64 7], [.Int64 0]]⟩ rfl).2
  exact ⟨h.symm, rfl⟩

/-- C9: LIMIT k OFFSET j (non-negative i64 literals, evaluated in the
empty row context) yields the slice that skips `min(j, len)` leading rows
and keeps at most `k`; a non-Int64 LIMIT value behaves as an absent LIMIT,
a non-Int64 OFFSET value as OFFSET 0.  (In the pipeline this stage runs
last, after ORDER BY — `exec_select` step 7.) -/
theorem limit_offset_semantics :
    (∀ (evalE : EvalExpr) (rs : RowSet) (limE offE : Expr) (k j : Int) (out : RowSet),
      evalE limE [] = .ok (.Int64 k) →
      evalE offE [] = .ok (.Int64 j) →
      0 ≤ k → k < 2 ^ 63 →
      0 ≤ j → j < 2 ^ 63 →
      apply_limit_offset evalE rs (some limE) (some offE) = .ok out →
      out.rows = (rs.rows.drop (min j.toNat rs.rows.length)).take k.toNat ∧
      out.rows.length ≤ k.toNat) ∧
    (∀ (evalE : EvalExpr) (rs : RowSet) (limE : Expr) (v : ScalarValue)
        (offset : Option Expr),
      evalE limE [] = .ok v → (∀ n, v ≠ .Int64 n) →
      apply_limit_offset evalE rs (some limE) offset =
        apply_limit_offset evalE rs none offset) ∧
    (∀ (evalE : EvalExpr) (rs : RowSet) (offE : Expr) (v : ScalarValue)
        (limit : Option Expr),
      evalE offE [] = .ok v → (∀ n, v ≠ .Int64 n) →
      apply_limit_offset evalE rs limit (some offE) =
        apply_limit_offset evalE rs limit none) := by
  refine ⟨?_, ?_, ?_⟩
  · intro evalE rs limE offE k j out hk hj hk0 hk63 hj0 hj63 h
    have husk : usize_of_i64 k = k.toNat := by
      unfold usize_of_i64
      have h2 : k.emod 18446744073709551616 = k := Int.emod_eq_of_lt hk0 (by omega)
      rw [h2]
    have husj : usize_of_i64 j = j.toNat := by
      unfold usize_of_i64
      have h2 : j.emod 18446744073709551616 = j := Int.emod_eq_of_lt hj0 (by omega)
      rw [h2]
    unfold apply_limit_offset at h
    dsimp only at h
    rw [hj, hk] at h
    dsimp only at h
    rw [husk, husj] at h
    simp only [Option.isSome_some, or_true, if_true, Except.ok.injEq] at h
    subst h
    constructor
    · simp only []
      rw [List.take_eq_take]
      simp only [List.length_take, List.length_drop]
      omega
    · simp only [List.length_take, List.length_drop]
      omega
  · intro evalE rs limE v offset hv hnot
    unfold apply_limit_offset
    dsimp only
    rw [hv]
    cases v <;> first | exact absurd rfl (hnot _) | rfl
  · intro evalE rs offE v limit hv hnot
    unfold apply_limit_offset
    dsimp only
    rw [hv]
    cases v <;> first | exact absurd rfl (hnot _) | rfl

/-- C9 witness: LIMIT 2 OFFSET 1 on four rows keeps rows 2 and 3. -/
theorem limit_offset_semantics_witness :
    apply_limit_offset lit_eval ⟨[], [[.Int64 1], [.Int64 2], [.Int64 3], [.Int64 4]]⟩
        (some (.Literal (.Integer 2))) (some (.Literal (.Integer 1)))
      = .ok ⟨[], [[.Int64 2], [.Int64 3]]⟩ ∧
    ([[ScalarValue.Int64 2], [ScalarValue.Int64 3]] : List (List ScalarValue)).length ≤ 2 := by
  have h := limit_offset_semantics.1 lit_eval
    ⟨[], [[.Int64 1], [.Int64 2], [.Int64 3], [.Int64 4]]⟩
    (.Literal (.Integer 2)) (.Literal (.Integer 1)) 2 1
    ⟨[], [[.Int64 2], [.Int64 3]]⟩ rfl rfl (by decide) (by decide) (by decide) (by decide)
    (by decide)
  exact ⟨by decide, h.2⟩

/-- Rows surviving the dedup retain-loop are not Debug-equal to any row
already in the seen accumulator. -/
theorem dedup_rows_not_seen :
    ∀ (rows seen : List (List ScalarValue)) (y : List ScalarValue),
      y ∈ dedup_rows rows seen → ∀ s ∈ seen, row_dbg_eq s y = false := by
  intro rows
  induction rows with
  | nil => intro seen y hy; simp [dedup_rows] at hy
  | cons row rest ih =>
    intro seen y hy s hs
    rw [dedup_rows] at hy
    by_cases hseen : seen.any (fun s => row_dbg_eq s row) = true
    · rw [if_pos hseen] at hy
      exact ih seen y hy s hs
    · rw [if_neg hseen] at hy
      rcases List.mem_cons.mp hy with heq | htail
      · subst heq
        have hfalse : seen.any (fun s => row_dbg_eq s y) = false :=
          Bool.eq_false_iff.mpr hseen
        exact Bool.eq_false_iff.mpr (List.any_eq_false.mp hfalse s hs)
      · exact ih (seen ++ [row]) y htail s (List.mem_append_left _ hs)

/-- The dedup retain-loop output has no Debug-equal pair (earlier row
related to any later row). -/
theorem dedup_rows_pairwise :
    ∀ (rows seen : List (List ScalarValue)),
      List.Pairwise (fun a b => row_dbg_eq a b = false) (dedup_rows rows seen) := by
  intro rows
  induction rows with
  | nil => intro seen; simp [dedup_rows]
  | cons row rest ih =>
    intro seen
    rw [dedup_rows]
    by_cases hseen : seen.any (fun s => row_dbg_eq s row) = true
    · rw [if_pos hseen]; exact ih seen
    · rw [if_neg hseen]
      refine List.Pairwise.cons ?_ (ih (seen ++ [row]))
      intro y hy
      exact dedup_rows_not_seen rest (seen ++ [row]) y hy row
        (List.mem_append_right _ (List.mem_singleton.mpr rfl))

/-- C5 counterexample: non-ALL EXCEPT does NOT dedup — its output here
contains an exact duplicate pair, contradicting the claimed dedup step. -/
theorem except_without_all_keeps_duplicates :
    (exec_set_op .Except false ⟨[], [[.Int64 1], [.Int64 1]]⟩ ⟨[], [[.Int64 2]]⟩).rows
      = [[.Int64 1], [.Int64 1]] ∧
    row_dbg_eq [ScalarValue.Int64 1] [ScalarValue.Int64 1] = true := by
  exact ⟨by decide, by decide⟩

/-- C5 amended: UNION ALL concatenates; UNION without ALL dedups its
output; INTERSECT keeps left rows with a structural match on the right and
dedups exactly when ALL is absent; EXCEPT keeps left rows without a right
match and never runs the dedup step — the `all` flag is ignored there. -/
theorem set_op_semantics (l r : RowSet) :
    (exec_set_op .Union true l r).rows = l.rows ++ r.rows ∧
    List.Pairwise (fun a b => row_dbg_eq a b = false) (exec_set_op .Union false l r).rows ∧
    (exec_set_op .Intersect true l r).rows
      = l.rows.filter (fun row => r.rows.contains row) ∧
    exec_set_op .Intersect false l r = dedup_rowset (exec_set_op .Intersect true l r) ∧
    List.Pairwise (fun a b => row_dbg_eq a b = false)
      (exec_set_op .Intersect false l r).rows ∧
    (∀ all : Bool, (exec_set_op .Except all l r).rows
      = l.rows.filter (fun row => !r.rows.contains row)) := by
  refine ⟨rfl, ?_, rfl, rfl, ?_, ?_⟩
  · show List.Pairwise _ (dedup_rowset _).rows
    exact dedup_rows_pairwise _ _
  · show List.Pairwise _ (dedup_rowset _).rows
    exact dedup_rows_pairwise _ _
  · intro all; cases all <;> rfl

/-- C3 counterexample: STRING_AGG over an EMPTY group returns the empty
string, not the NULL the claim states for every non-COUNT aggregate. -/
theorem string_agg_empty_group_is_empty_string :
    eval_expr_agg lit_eval (.Function "STRING_AGG" [.Column none "v"] false none)
        [] [] [] [] = .ok (.Utf8 "") ∧
    (Except.ok (ScalarValue.Utf8 "") : Except PivotError ScalarValue) ≠ .ok .Null := by
  constructor
  · unfold eval_expr_agg
    rfl
  · decide

/-- C3 amended: the aggregation stage of a SELECT with aggregates and no
GROUP BY emits exactly one row — the whole input is one group, even when
empty — and over the empty input COUNT yields 0, SUM / AVG / MIN / MAX /
STDDEV / VARIANCE yield NULL, while STRING_AGG yields the empty string and
ARRAY_AGG the string "[]". -/
theorem agg_no_group_by_semantics :
    (∀ (evalE : EvalExpr) (rs : RowSet) (stmt : SelectStatement) (out : RowSet),
      stmt.group_by = [] →
      exec_group_by evalE rs stmt = .ok out →
      out.rows.length = 1) ∧
    (∀ (evalE : EvalExpr) (cols : List Col) (gexprs : List Expr),
      eval_expr_agg evalE (.Function "COUNT" [.Wildcard] false none) [] [] cols gexprs
        = .ok (.Int64 0)) ∧
    (∀ (evalE : EvalExpr) (cols : List Col) (gexprs : List Expr) (a : Expr),
      eval_expr_agg evalE (.Function "COUNT" [a] false none) [] [] cols gexprs
        = .ok (.Int64 0)) ∧
    (∀ (evalE : EvalExpr) (cols : List Col) (gexprs : List Expr) (a : Expr),
      eval_expr_agg evalE (.Function "SUM" [a] false none) [] [] cols gexprs = .ok .Null) ∧
    (∀ (evalE : EvalExpr) (cols : List Col) (gexprs : List Expr) (a : Expr),
      eval_expr_agg evalE (.Function "AVG" [a] false none) [] [] cols gexprs = .ok .Null) ∧
    (∀ (evalE : EvalExpr) (cols : List Col) (gexprs : List Expr) (a : Expr),
      eval_expr_agg evalE (.Function "MIN" [a] false none) [] [] cols gexprs = .ok .Null) ∧
    (∀ (evalE : EvalExpr) (cols : List Col) (gexprs : List Expr) (a : Expr),
      eval_expr_agg evalE (.Function "MAX" [a] false none) [] [] cols gexprs = .ok .Null) ∧
    (∀ (evalE : EvalExpr) (cols : List Col) (gexprs : List Expr) (a : Expr),
      eval_expr_agg evalE (.Function "STDDEV" [a] false none) [] [] cols gexprs
        = .ok .Null) ∧
    (∀ (evalE : EvalExpr) (cols : List Col) (gexprs : List Expr) (a : Expr),
      eval_expr_agg evalE (.Function "VARIANCE" [a] false none) [] [] cols gexprs
        = .ok .Null) ∧
    (∀ (evalE : EvalExpr) (cols : List Col) (gexprs : List Expr) (a : Expr),
      eval_expr_agg evalE (.Function "STRING_AGG" [a] false none) [] [] cols gexprs
        = .ok (.Utf8 "")) ∧
    (∀ (evalE : EvalExpr) (cols : List Col) (gexprs : List Expr) (a : Expr),
      eval_expr_agg evalE (.Function "ARRAY_AGG" [a] false none) [] [] cols gexprs
        = .ok (.Utf8 "[]")) := by
  refine ⟨?_, ?_, ?_, ?_, ?_, ?_, ?_, ?_, ?_, ?_, ?_⟩
  · intro evalE rs stmt out hgb h
    unfold exec_group_by at h
    rw [hgb] at h
    dsimp only [List.isEmpty_nil] at h
    rw [if_pos rfl] at h
    cases hr : eval_agg_row evalE (group_out_items rs.cols stmt.columns).2 rs.rows
        (List.range rs.rows.length) rs.cols [.Null] [] with
    | error e => rw [hr] at h; exact absurd h (by simp)
    | ok row =>
      rw [hr] at h
      simp only [Except.ok.injEq] at h
      subst h
      rfl
  case refine_2 =>
    intro evalE cols gexprs
    unfold eval_expr_agg
    rfl
  all_goals intro evalE cols gexprs a
  case refine_3 =>
    unfold eval_expr_agg
    cases a <;> rfl
  all_goals unfold eval_expr_agg
  all_goals rfl

/-- C3 witness: one COUNT(*) projection over an empty one-column input
produces exactly the single row [0]. -/
theorem agg_no_group_by_semantics_witness :
    exec_group_by lit_eval ⟨[⟨none, "v", DataType.Int64⟩], []⟩
        ⟨false, [.Expr (.Function "COUNT" [.Wildcard] false none) none], none, [], none, [],
         none, [], none, none⟩
      = .ok ⟨[⟨none, "count", DataType.Utf8⟩], [[.Int64 0]]⟩ ∧
    ([[ScalarValue.Int64 0]] : List (List ScalarValue)).length = 1 := by
  have e1 := agg_no_group_by_semantics.2.1 lit_eval [⟨none, "v", DataType.Int64⟩] []
  constructor
  · simp only [exec_group_by, group_out_items, expr_display_name, eval_agg_row,
      rust_to_lowercase, List.isEmpty_nil, if_true, List.range, List.range.loop, e1]
    rfl
  · rfl

/-- Pushing a storage-compatible (or Null) coerced value grows the
selected typed buffer and the validity bitmask by exactly one. -/
theorem col_ok_push (rc : Nat) (t : DataType) (cs : ColumnStorage) (cv : ScalarValue)
    (hfit : (match value_class cv with
             | none => true
             | some c => c == storage_class t) = true)
    (h1 : selected_len cs t = rc) (h2 : cs.nullmask.len = rc) :
    selected_len (push_to_column cs t cv) t = rc + 1 ∧
    (push_to_column cs t cv).nullmask.len = rc + 1 := by
  cases cv <;> cases t <;>
    simp_all [push_to_column, selected_len, storage_class, value_class,
      NullBitmask.push, NullBitmask.len]

/-- Setting a cell below the row count with a storage-compatible (or Null)
coerced value keeps every tracked length unchanged. -/
theorem col_ok_set (rc : Nat) (t : DataType) (cs : ColumnStorage) (cv : ScalarValue)
    (row : Nat) (hrow : row < rc)
    (hfit : (match value_class cv with
             | none => true
             | some c => c == storage_class t) = true)
    (h1 : selected_len cs t = rc) (h2 : cs.nullmask.len = rc) :
    selected_len (set_col_update cs row cv) t = rc ∧
    (set_col_update cs row cv).nullmask.len = rc := by
  cases cv <;> cases t <;>
    simp_all [set_col_update, selected_len, storage_class, value_class,
      assign_or_push, NullBitmask.set, NullBitmask.len]

/-- Indexed characterization of the length invariant. -/
theorem wfb_iff (ds : DataStore) :
    wfb ds = true ↔
      (ds.columns.length = ds.schema.columns.length ∧
       ∀ i cd cs, ds.schema.columns.get? i = some cd → ds.columns.get? i = some cs →
         col_ok ds.row_count cd cs = true) := by
  rw [wfb_eq_col_ok]
  rw [Bool.and_eq_true]
  rw [zip_all_iff_index (fun cd cs => col_ok ds.row_count cd cs)]
  constructor
  · rintro ⟨h1, h2⟩
    exact ⟨Nat.beq_eq_true_eq _ _ ▸ h1, h2⟩
  · rintro ⟨h1, h2⟩
    exact ⟨by simp [h1], h2⟩

/-- The write loop of `append_row`, on success: schema, row count and
column count are unchanged, columns outside the written window are
untouched, and each written column is the push of the coerced value into
the original storage. -/
theorem write_values_ok :
    ∀ (vals : List ScalarValue) (i : Nat) (ds ds2 : DataStore),
      write_values ds vals i = (ds2, .ok ()) →
      ds2.schema = ds.schema ∧ ds2.row_count = ds.row_count ∧
      ds2.columns.length = ds.columns.length ∧
      (∀ j, j < i ∨ i + vals.length ≤ j → ds2.columns.get? j = ds.columns.get? j) ∧
      (∀ k v, vals.get? k = some v →
        ∃ cd cs, ds.schema.columns.get? (i + k) = some cd ∧
          ds.columns.get? (i + k) = some cs ∧
          ∃ cv, coerce_value v cd.data_type = .ok cv ∧
            ds2.columns.get? (i + k) = some (push_to_column cs cd.data_type cv)) := by
  intro vals
  induction vals with
  | nil =>
    intro i ds ds2 h
    rw [write_values] at h
    simp only [Prod.mk.injEq] at h
    obtain ⟨h1, -⟩ := h
    subst h1
    exact ⟨rfl, rfl, rfl, fun j _ => rfl, fun k v hv => by simp at hv⟩
  | cons v rest ih =>
    intro i ds ds2 h
    rw [write_values] at h
    cases hs : ds.schema.columns.get? i with
    | none => rw [hs] at h; simp at h
    | some cd =>
      rw [hs] at h
      dsimp only at h
      cases hc : coerce_value v cd.data_type with
      | error e => rw [hc] at h; simp at h
      | ok cv =>
        rw [hc] at h
        dsimp only at h
        cases hcol : ds.columns.get? i with
        | none => rw [hcol] at h; simp at h
        | some col =>
          rw [hcol] at h
          dsimp only at h
          have hi_lt : i < ds.columns.length := by
            have := List.get?_eq_some.mp hcol
            exact this.1
          obtain ⟨ihschema, ihrc, ihlen, ihout, ihin⟩ := ih (i + 1) _ ds2 h
          refine ⟨ihschema, ihrc, by rw [ihlen]; exact List.length_set ds.columns i _, ?_, ?_⟩
          · intro j hj
            simp only [List.length_cons] at hj
            have hj2 : j < i + 1 ∨ (i + 1) + rest.length ≤ j := by omega
            rw [ihout j hj2]
            exact List.get?_set_ne _ _ (by omega)
          · intro k w hw
            cases k with
            | zero =>
              have hvw : v = w := by simpa using hw
              subst hvw
              refine ⟨cd, col, by simpa using hs, by simpa using hcol, cv, hc, ?_⟩
              rw [show i + 0 = i from by omega]
              rw [ihout i (Or.inl (by omega))]
              rw [List.get?_set_eq]
              rw [hcol]
              rfl
            | succ k2 =>
              simp only [List.get?_cons_succ] at hw
              obtain ⟨cd2, cs2, hs2, hc2, cv2, hcv2, hout2⟩ := ihin k2 w hw
              refine ⟨cd2, cs2, ?_, ?_, cv2, hcv2, ?_⟩
              · rw [show i + (k2 + 1) = (i + 1) + k2 from by omega]
                exact hs2
              · rw [show i + (k2 + 1) = (i + 1) + k2 from by omega]
                have hx := List.get?_set_ne (push_to_column col cd.data_type cv)
                  ds.columns (show i ≠ (i + 1) + k2 from by omega)
                rw [← hx]
                exact hc2
              · rw [show i + (k2 + 1) = (i + 1) + k2 from by omega]
                exact hout2

/-- Storage compatibility rephrased through a successful coercion. -/
theorem value_fits_of_coerce (v : ScalarValue) (t : DataType) (cv : ScalarValue)
    (hfit : value_fits v t = true) (hc : coerce_value v t = .ok cv) :
    (match value_class cv with
     | none => true
     | some c => c == storage_class t) = true := by
  unfold value_fits at hfit
  rw [hc] at hfit
  exact hfit

/-- A successful `append_row` of storage-compatible values preserves the
length invariant. -/
theorem wfb_append_row (ds ds2 : DataStore) (vals : List ScalarValue)
    (hwf : wfb ds = true)
    (hfit : (vals.zip ds.schema.columns).all (fun p => value_fits p.1 p.2.data_type) = true)
    (h : append_row ds vals = (ds2, .ok ())) : wfb ds2 = true := by
  obtain ⟨hlen, hcols⟩ := (wfb_iff ds).mp hwf
  have hfiti := (zip_all_iff_index (fun v cd => value_fits v cd.data_type)
    vals ds.schema.columns).mp hfit
  unfold append_row at h
  split at h
  · simp at h
  · next harity =>
    have harity2 : vals.length = ds.schema.columns.length := by
      simpa [Schema.column_count] using harity
    cases hnc : null_check ds.schema.columns vals with
    | some name => rw [hnc] at h; simp at h
    | none =>
      rw [hnc] at h
      dsimp only at h
      cases hw : write_values ds vals 0 with
      | mk dsw res =>
        rw [hw] at h
        cases res with
        | error e => simp at h
        | ok u =>
          dsimp only at h
          simp only [Prod.mk.injEq] at h
          obtain ⟨h1, -⟩ := h
          subst h1
          obtain ⟨hschema, hrc, hlen2, hout, hin⟩ := write_values_ok vals 0 ds dsw hw
          rw [wfb_iff]
          refine ⟨by simp only []; rw [hlen2, hschema, hlen], ?_⟩
          intro i cd cs hcd hcs
          simp only [] at hcd hcs
          rw [hschema] at hcd
          have hi : i < ds.schema.columns.length := (List.get?_eq_some.mp hcd).1
          cases hv : vals.get? i with
          | none =>
            have := List.get?_eq_none.mp hv
            omega
          | some v =>
            obtain ⟨cd0, cs0, hcd0, hcs0, cv, hcv, hpush⟩ := hin i v hv
            rw [show (0 : Nat) + i = i from by omega] at hcd0 hcs0 hpush
            rw [hcd0] at hcd
            have hcdeq : cd0 = cd := by simpa using hcd
            subst hcdeq
            rw [hpush] at hcs
            have hcseq : push_to_column cs0 cd0.data_type cv = cs := by simpa using hcs
            subst hcseq
            have hok0 := hcols i cd0 cs0 hcd0 hcs0
            simp only [col_ok, Bool.and_eq_true, beq_iff_eq] at hok0
            have hpfit := value_fits_of_coerce v cd0.data_type cv
              (hfiti i v cd0 hv hcd0) hcv
            have := col_ok_push ds.row_count cd0.data_type cs0 cv hpfit hok0.1 hok0.2
            simp only [col_ok, Bool.and_eq_true, beq_iff_eq]
            rw [hrc]
            exact this

/-- A successful `set_value` of a storage-compatible value preserves the
length invariant. -/
theorem wfb_set_value (ds ds2 : DataStore) (row col_idx : Nat) (v : ScalarValue)
    (hwf : wfb ds = true)
    (hfit : (match ds.schema.columns.get? col_idx with
             | some cd => value_fits v cd.data_type
             | none => true) = true)
    (h : set_value ds row col_idx v = (ds2, .ok ())) : wfb ds2 = true := by
  obtain ⟨hlen, hcols⟩ := (wfb_iff ds).mp hwf
  unfold set_value at h
  split at h
  · simp at h
  · next hrow =>
    cases hs : ds.schema.columns.get? col_idx with
    | none => rw [hs] at h; simp at h
    | some cd =>
      rw [hs] at h
      dsimp only at h
      cases hc : coerce_value v cd.data_type with
      | error e => rw [hc] at h; simp at h
      | ok cv =>
        rw [hc] at h
        dsimp only at h
        cases hcol : ds.columns.get? col_idx with
        | none => rw [hcol] at h; simp at h
        | some cs =>
          rw [hcol] at h
          simp only [Prod.mk.injEq] at h
          obtain ⟨h1, -⟩ := h
          subst h1
          rw [hs] at hfit
          rw [wfb_iff]
          refine ⟨by simp only []; rw [List.length_set]; exact hlen, ?_⟩
          intro j cd2 cs2 hcd2 hcs2
          simp only [] at hcd2 hcs2
          by_cases hij : col_idx = j
          · subst hij
            rw [hs] at hcd2
            have : cd = cd2 := by simpa using hcd2
            subst this
            rw [List.get?_set_eq, hcol] at hcs2
            have : set_col_update cs row cv = cs2 := by simpa using hcs2
            subst this
            have hok0 := hcols col_idx cd cs hs hcol
            simp only [col_ok, Bool.and_eq_true, beq_iff_eq] at hok0 ⊢
            exact col_ok_set ds.row_count cd.data_type cs cv row (by omega)
              (value_fits_of_coerce v cd.data_type cv hfit hc) hok0.1 hok0.2
          · rw [List.get?_set_ne _ _ hij] at hcs2
            exact hcols j cd2 cs2 hcd2 hcs2

/-- A successful `add_column` preserves the length invariant. -/
theorem wfb_add_column (ds ds2 : DataStore) (cdef : ColumnDef)
    (hwf : wfb ds = true)
    (h : add_column ds cdef = (ds2, .ok ())) : wfb ds2 = true := by
  obtain ⟨hlen, hcols⟩ := (wfb_iff ds).mp hwf
  unfold add_column at h
  split at h
  · simp at h
  · simp only [Prod.mk.injEq] at h
    obtain ⟨h1, -⟩ := h
    subst h1
    rw [wfb_iff]
    refine ⟨by simp [hlen], ?_⟩
    intro j cd cs hcd hcs
    simp only [] at hcd hcs
    by_cases hj : j < ds.schema.columns.length
    · rw [List.get?_append hj] at hcd
      rw [List.get?_append (by omega)] at hcs
      exact hcols j cd cs hcd hcs
    · by_cases hj2 : j = ds.schema.columns.length
      · subst hj2
        rw [List.get?_concat_length] at hcd
        rw [show ds.schema.columns.length = ds.columns.length from hlen.symm] at hcs
        rw [List.get?_concat_length] at hcs
        have hcdq : cdef = cd := by simpa using hcd
        subst hcdq
        have hcsq : _ = cs := Option.some.inj hcs
        subst hcsq
        simp only [col_ok, Bool.and_eq_true, beq_iff_eq]
        cases htype : cdef.data_type <;>
          simp [selected_len, storage_class, NullBitmask.len, htype]
      · exfalso
        have h1 := (List.get?_eq_some.mp hcd).1
        simp only [List.length_append, List.length_singleton] at h1
        omega

/-- A successful `drop_column` preserves the length invariant. -/
theorem wfb_drop_column (ds ds2 : DataStore) (name : String)
    (hwf : wfb ds = true)
    (h : drop_column ds name = (ds2, .ok ())) : wfb ds2 = true := by
  obtain ⟨hlen, hcols⟩ := (wfb_iff ds).mp hwf
  unfold drop_column at h
  cases hidx : ds.schema.find_column_index name with
  | none => rw [hidx] at h; simp at h
  | some idx =>
    rw [hidx] at h
    simp only [Prod.mk.injEq] at h
    obtain ⟨h1, -⟩ := h
    subst h1
    rw [wfb_iff]
    constructor
    · simp only [List.length_eraseIdx, hlen]
    · intro j cd cs hcd hcs
      simp only [] at hcd hcs
      rw [get?_eraseIdx] at hcd hcs
      by_cases hj : j < idx
      · rw [if_pos hj] at hcd hcs
        exact hcols j cd cs hcd hcs
      · rw [if_neg hj] at hcd hcs
        exact hcols (j + 1) cd cs hcd hcs

/-- A freshly created table satisfies the length invariant. -/
theorem wfb_new (s : Schema) : wfb (DataStore.new s) = true := by
  rw [wfb_iff]
  constructor
  · simp [DataStore.new, Schema.column_count]
  · intro i cd cs hcd hcs
    simp only [DataStore.new, List.get?_eq_getElem?, List.getElem?_replicate] at hcs
    split at hcs
    · have : ColumnStorage.new = cs := by simpa using hcs
      subst this
      cases htype : cd.data_type <;>
        simp [col_ok, ColumnStorage.new, selected_len, storage_class,
          NullBitmask.len, htype, DataStore.new]
    · simp at hcs

/-- One storage-compatible successful operation preserves the length
invariant. -/
theorem wfb_apply_op (ds ds2 : DataStore) (op : TableOp)
    (hwf : wfb ds = true) (hfit : op_fits ds op = true)
    (h : apply_op ds op = (ds2, .ok ())) : wfb ds2 = true := by
  cases op with
  | append values =>
    exact wfb_append_row ds ds2 values hwf (by simpa [op_fits] using hfit) h
  | set row col val =>
    exact wfb_set_value ds ds2 row col val hwf (by simpa [op_fits] using hfit) h
  | add cdef => exact wfb_add_column ds ds2 cdef hwf h
  | drop name => exact wfb_drop_column ds ds2 name hwf h

/-- Any storage-compatible run of successful operations preserves the
length invariant. -/
theorem wfb_apply_ops :
    ∀ (ops : List TableOp) (ds ds2 : DataStore),
      wfb ds = true → fits_run ds ops = true → apply_ops ds ops = some ds2 →
      wfb ds2 = true := by
  intro ops
  induction ops with
  | nil =>
    intro ds ds2 hwf _ h
    simp [apply_ops] at h
    subst h
    exact hwf
  | cons op rest ih =>
    intro ds ds2 hwf hfit h
    rw [apply_ops] at h
    rw [fits_run] at hfit
    simp only [Bool.and_eq_true] at hfit
    cases hop : apply_op ds op with
    | mk dsp res =>
      rw [hop] at h hfit
      cases res with
      | error e => simp at h
      | ok u =>
        dsimp only at h hfit
        exact ih dsp ds2 (wfb_apply_op ds dsp op hwf hfit.1 hop) hfit.2 h

/-- C1 counterexample: a SUCCESSFUL `append_row` of an Int64 value into a
utf8 column stores the value in the int64 buffer, leaving the selected
utf8 buffer shorter than the row count — the invariant stated by the claim
is broken by an ordinary operation sequence. -/
theorem append_mismatched_value_breaks_invariant :
    (append_row utf8_table [.Int64 5]).2 = .ok () ∧
    wfb (append_row utf8_table [.Int64 5]).1 = false ∧
    (append_row utf8_table [.Int64 5]).1.row_count = 1 ∧
    selected_len (((append_row utf8_table [.Int64 5]).1.columns.headD ColumnStorage.new))
      DataType.Utf8 = 0 := by
  exact ⟨by decide, by decide, by decide, by decide⟩

/-- C1 amended: starting from table creation, after ANY sequence of
SUCCESSFUL table operations whose appended / set values are Null or
storage-compatible with their column's declared type (after coercion),
every column's selected typed buffer and validity bitmask have length
equal to the table's row count. -/
theorem length_invariant_for_fitting_runs (s : Schema) (ops : List TableOp)
    (ds : DataStore) (hfit : fits_run (DataStore.new s) ops = true)
    (h : apply_ops (DataStore.new s) ops = some ds) : wfb ds = true :=
  wfb_apply_ops ops (DataStore.new s) ds (wfb_new s) hfit h

/-- C1 witness: a concrete run — create, append, add a column, set a cell,
drop a column — lands in a store satisfying the invariant. -/
theorem length_invariant_for_fitting_runs_witness :
    fits_run (DataStore.new ⟨[⟨"a", DataType.Utf8, true⟩, ⟨"b", DataType.Date, true⟩]⟩)
        [.append [.Utf8 "x", .Utf8 "1970-01-05"], .add ⟨"c", DataType.Int64, true⟩,
         .set 0 2 (.Int64 9), .drop "a"] = true ∧
    wfb ((apply_ops
        (DataStore.new ⟨[⟨"a", DataType.Utf8, true⟩, ⟨"b", DataType.Date, true⟩]⟩)
        [.append [.Utf8 "x", .Utf8 "1970-01-05"], .add ⟨"c", DataType.Int64, true⟩,
         .set 0 2 (.Int64 9), .drop "a"]).getD
      (DataStore.new ⟨[]⟩)) = true := by
  refine ⟨by decide, ?_⟩
  exact length_invariant_for_fitting_runs
    ⟨[⟨"a", DataType.Utf8, true⟩, ⟨"b", DataType.Date, true⟩]⟩
    [.append [.Utf8 "x", .Utf8 "1970-01-05"], .add ⟨"c", DataType.Int64, true⟩,
     .set 0 2 (.Int64 9), .drop "a"]
    ((apply_ops
        (DataStore.new ⟨[⟨"a", DataType.Utf8, true⟩, ⟨"b", DataType.Date, true⟩]⟩)
        [.append [.Utf8 "x", .Utf8 "1970-01-05"], .add ⟨"c", DataType.Int64, true⟩,
         .set 0 2 (.Int64 9), .drop "a"]).getD
      (DataStore.new ⟨[]⟩))
    (by decide) (by decide)

/-- The only error `coerce_value` can raise is a TypeError (from a failed
string-to-temporal parse). -/
theorem coerce_value_error_kind (v : ScalarValue) (t : DataType) (e : PivotError)
    (h : coerce_value v t = .error e) : ∃ msg, e = .TypeError msg := by
  unfold coerce_value at h
  cases v <;> cases t <;> (try dsimp only at h) <;>
    first
      | exact Except.noConfusion h
      | (split at h
         · exact Except.noConfusion h
         · exact ⟨_, (Except.error.inj h).symm⟩)

/-- The write loop of `append_row`, on failure: the row count and schema
are untouched (though columns may have been), and the error is a
TypeError or a modelled indexing panic. -/
theorem write_values_error :
    ∀ (vals : List ScalarValue) (i : Nat) (ds ds2 : DataStore) (e : PivotError),
      write_values ds vals i = (ds2, .error e) →
      ds2.row_count = ds.row_count ∧ ds2.schema = ds.schema ∧
      ((∃ msg, e = .TypeError msg) ∨ (∃ msg, e = .IndexOutOfBounds msg)) := by
  intro vals
  induction vals with
  | nil =>
    intro i ds ds2 e h
    rw [write_values] at h
    simp at h
  | cons v rest ih =>
    intro i ds ds2 e h
    rw [write_values] at h
    cases hs : ds.schema.columns.get? i with
    | none =>
      rw [hs] at h
      simp only [Prod.mk.injEq] at h
      obtain ⟨h1, h2⟩ := h
      subst h1
      exact ⟨rfl, rfl, Or.inr ⟨_, (Except.error.inj h2).symm⟩⟩
    | some cd =>
      rw [hs] at h
      dsimp only at h
      cases hc : coerce_value v cd.data_type with
      | error e2 =>
        rw [hc] at h
        simp only [Prod.mk.injEq] at h
        obtain ⟨h1, h2⟩ := h
        subst h1
        have he : e2 = e := Except.error.inj h2
        subst he
        exact ⟨rfl, rfl, Or.inl (coerce_value_error_kind v cd.data_type e2 hc)⟩
      | ok cv =>
        rw [hc] at h
        dsimp only at h
        cases hcol : ds.columns.get? i with
        | none =>
          rw [hcol] at h
          simp only [Prod.mk.injEq] at h
          obtain ⟨h1, h2⟩ := h
          subst h1
          exact ⟨rfl, rfl, Or.inr ⟨_, (Except.error.inj h2).symm⟩⟩
        | some col =>
          rw [hcol] at h
          dsimp only at h
          obtain ⟨h1, h2, h3⟩ := ih (i + 1)
            { schema := ds.schema,
              columns := ds.columns.set i (push_to_column col cd.data_type cv),
              row_count := ds.row_count } ds2 e h
          exact ⟨h1, h2, h3⟩

/-- C10 counterexample: a coercion failure on the SECOND column leaves the
first column's buffers already extended — the failed `append_row` call did
not restore the table. -/
theorem append_row_coercion_failure_not_atomic :
    (append_row date_table [.Utf8 "x", .Utf8 "nope"]).2
      = .error (.TypeError "Cannot parse date: nope") ∧
    (append_row date_table [.Utf8 "x", .Utf8 "nope"]).1 ≠ date_table ∧
    ((append_row date_table [.Utf8 "x", .Utf8 "nope"]).1.columns.headD
      ColumnStorage.new).utf8s = ["x"] := by
  exact ⟨by decide, by decide, by decide⟩

/-- C10 amended: a failed `append_row` never changes `row_count` or the
schema, and the arity-mismatch and NOT-NULL checks (which run before any
mutation) leave the table fully unchanged; only a type-coercion failure
can leave earlier columns' buffers extended. -/
theorem append_row_error_effects (ds : DataStore) (vals : List ScalarValue)
    (ds2 : DataStore) (e : PivotError)
    (h : append_row ds vals = (ds2, .error e)) :
    ds2.row_count = ds.row_count ∧ ds2.schema = ds.schema ∧
    (∀ msg, e = .SchemaError msg → ds2 = ds) ∧
    (∀ msg, e = .NullError msg → ds2 = ds) := by
  unfold append_row at h
  split at h
  · simp only [Prod.mk.injEq] at h
    obtain ⟨h1, -⟩ := h
    subst h1
    exact ⟨rfl, rfl, fun _ _ => rfl, fun _ _ => rfl⟩
  · cases hnc : null_check ds.schema.columns vals with
    | some name =>
      rw [hnc] at h
      simp only [Prod.mk.injEq] at h
      obtain ⟨h1, -⟩ := h
      subst h1
      exact ⟨rfl, rfl, fun _ _ => rfl, fun _ _ => rfl⟩
    | none =>
      rw [hnc] at h
      dsimp only at h
      cases hw : write_values ds vals 0 with
      | mk dsw res =>
        rw [hw] at h
        cases res with
        | ok u => simp at h
        | error e2 =>
          dsimp only at h
          simp only [Prod.mk.injEq] at h
          obtain ⟨h1, h2⟩ := h
          subst h1
          have he : e2 = e := Except.error.inj h2
          subst he
          obtain ⟨hrc, hschema, hkind⟩ := write_values_error vals 0 ds dsw e2 hw
          refine ⟨hrc, hschema, ?_, ?_⟩
          · intro msg hmsg
            subst hmsg
            rcases hkind with ⟨m, hm⟩ | ⟨m, hm⟩ <;> exact absurd hm (by simp)
          · intro msg hmsg
            subst hmsg
            rcases hkind with ⟨m, hm⟩ | ⟨m, hm⟩ <;> exact absurd hm (by simp)

/-- C10 witness: the concrete failing append (bad date in column two)
leaves row count and schema unchanged. -/
theorem append_row_error_effects_witness :
    (append_row date_table [.Utf8 "x", .Utf8 "nope"]).2
      = .error (.TypeError "Cannot parse date: nope") ∧
    (append_row date_table [.Utf8 "x", .Utf8 "nope"]).1.row_count
      = date_table.row_count := by
  refine ⟨by decide, ?_⟩
  exact (append_row_error_effects date_table [.Utf8 "x", .Utf8 "nope"]
    (append_row date_table [.Utf8 "x", .Utf8 "nope"]).1
    (.TypeError "Cannot parse date: nope") (by decide)).1
